import Mathlib

/-!
# Verification of the XiaomiAIoT-U2 I2C device layer

Shallow embedding of the repository's I2C device classes
(`i2c_lib/pca9685.py`, `i2c_lib/e2_pca9685.py`, `i2c_lib/ht16k33.py`,
`devices_manager/e1.py`, `devices_manager/s1.py`).

The I2C bus (`i2c_lib/i2c.py`, class `I2CBase`) is modelled as a stationary
oracle: the success of each primitive operation is a function of the operation
itself and of the currently selected slave address.  Every attempted bus
operation is appended to a log, so theorems can speak about which registers
were written, with which bytes, and in which order.  The `fd <= 0` ("device
not open") early-return of each `I2CBase` primitive is subsumed by the oracle
answering `false`.

Python `int` arguments are modelled as `Int`; byte values written on the bus
are `Nat`.  The Python truthiness test `if self.address:` (true for a non-`None`,
non-zero address) is modelled by `addrTruthy`.
-/

/-- One attempted I2C bus operation, at the granularity of the `I2CBase`
primitives used by the device classes. -/
inductive BusOp where
  | setAddr (addr : Nat)
  | wByte (data : Nat)
  | rByte
  | wData (reg : Nat) (data : Nat)
  | rData (reg : Nat)
  | rBlock (reg : Nat) (len : Nat)
deriving DecidableEq

/-- The bus environment: a stationary oracle deciding the outcome of each
primitive as a function of the currently selected address and the operation. -/
structure Bus where
  setOk : Nat → Bool
  wByteOk : Option Nat → Nat → Bool
  rByteOk : Option Nat → Bool
  rByteVal : Option Nat → Nat
  wDataOk : Option Nat → Nat → Nat → Bool
  rDataOk : Option Nat → Nat → Bool
  rDataVal : Option Nat → Nat → Nat
  rBlockOk : Option Nat → Nat → Bool
  rBlockVal : Option Nat → Nat → Nat → List Nat

/-- Mutable bus-side state: the currently selected slave address and the log
of operations attempted so far. -/
structure BusState where
  cur : Option Nat
  log : List BusOp
deriving DecidableEq

/-- Python `I2CBase.set_address`: on success the selected address is updated; on
failure it is left unchanged (the `ioctl` raised). -/
def set_address (b : Bus) (s : BusState) (addr : Nat) : Bool × BusState :=
  if b.setOk addr then (true, ⟨some addr, s.log ++ [.setAddr addr]⟩)
  else (false, ⟨s.cur, s.log ++ [.setAddr addr]⟩)

/-- Python `I2CBase.write_byte`. -/
def write_byte (b : Bus) (s : BusState) (data : Nat) : Bool × BusState :=
  (b.wByteOk s.cur data, ⟨s.cur, s.log ++ [.wByte data]⟩)

/-- Python `I2CBase.read_byte`: returns `(success, value)`, value `0` on failure. -/
def read_byte (b : Bus) (s : BusState) : Bool × Nat × BusState :=
  (b.rByteOk s.cur, if b.rByteOk s.cur then b.rByteVal s.cur else 0,
    ⟨s.cur, s.log ++ [.rByte]⟩)

/-- Python `I2CBase.write_byte_data reg data`. -/
def write_byte_data (b : Bus) (s : BusState) (reg data : Nat) : Bool × BusState :=
  (b.wDataOk s.cur reg data, ⟨s.cur, s.log ++ [.wData reg data]⟩)

/-- Python `I2CBase.read_byte_data reg`: returns `(success, value)`, value `0` on failure. -/
def read_byte_data (b : Bus) (s : BusState) (reg : Nat) : Bool × Nat × BusState :=
  (b.rDataOk s.cur reg, if b.rDataOk s.cur reg then b.rDataVal s.cur reg else 0,
    ⟨s.cur, s.log ++ [.rData reg]⟩)

/-- Python `I2CBase.read_block_data reg length`: returns `(success, bytes)`,
`[]` on failure. -/
def read_block_data (b : Bus) (s : BusState) (reg len : Nat) :
    Bool × List Nat × BusState :=
  (b.rBlockOk s.cur reg,
    if b.rBlockOk s.cur reg then b.rBlockVal s.cur reg len else [],
    ⟨s.cur, s.log ++ [.rBlock reg len]⟩)

/-- Python truthiness of an optional address: `if self.address:` is true
exactly when the address is not `None` and not `0`. -/
def addrTruthy : Option Nat → Bool
  | none => false
  | some a => a != 0

/-- Python `max(0, min(hi, x))` used by the clamping code. -/
def pyClamp (hi : Int) (x : Int) : Int := max 0 (min hi x)

namespace PCA9685

/-- Device state of `PCA9685` (from `I2CDevice.__init__`): bus reference
(present or `None`), optional address, initialized flag. -/
structure Dev where
  hasBus : Bool
  address : Option Nat
  is_initialized : Bool
deriving DecidableEq

def MODE1 : Nat := 0x00
def LED0_ON_L : Nat := 0x06
def LED0_ON_H : Nat := 0x07
def LED0_OFF_L : Nat := 0x08
def LED0_OFF_H : Nat := 0x09
def ALLLED_ON_L : Nat := 0xFA
def ALLLED_ON_H : Nat := 0xFB
def ALLLED_OFF_L : Nat := 0xFC
def ALLLED_OFF_H : Nat := 0xFD

def POSSIBLE_ADDRESSES : List Nat := [0x60, 0x61, 0x62, 0x63]

/-- Python `PCA9685.set_all_pwm`: refuses while not initialized; otherwise clamps
both ticks into `[0, 4095]` and issues the four broadcast-register writes,
short-circuiting on the first failure (Python `and`). -/
def set_all_pwm (b : Bus) (d : Dev) (s : BusState) (onT offT : Int) :
    Bool × BusState :=
  if !d.is_initialized then (false, s)
  else
    let onN := (pyClamp 4095 onT).toNat
    let offN := (pyClamp 4095 offT).toNat
    let (ok1, s1) := write_byte_data b s ALLLED_ON_L (onN &&& 0xFF)
    if !ok1 then (false, s1) else
    let (ok2, s2) := write_byte_data b s1 ALLLED_ON_H ((onN >>> 8) &&& 0xFF)
    if !ok2 then (false, s2) else
    let (ok3, s3) := write_byte_data b s2 ALLLED_OFF_L (offN &&& 0xFF)
    if !ok3 then (false, s3) else
    write_byte_data b s3 ALLLED_OFF_H ((offN >>> 8) &&& 0xFF)

/-- Python `PCA9685.initialize`: guard on bus/address truthiness, write `MODE1 := 0`,
then call `set_all_pwm(0, 0)` with the result *discarded* (as in the source:
the call happens while `is_initialized` is still false), then set the
initialized flag and return `True`. -/
def init (b : Bus) (d : Dev) (s : BusState) : Bool × Dev × BusState :=
  if !d.hasBus || !addrTruthy d.address then (false, d, s)
  else
    let (ok, s1) := write_byte_data b s MODE1 0x00
    if !ok then (false, d, s1)
    else
      let (_, s2) := set_all_pwm b d s1 0 0
      (true, ⟨d.hasBus, d.address, true⟩, s2)

/-- The address-pool scan loop of `PCA9685.detect`: select each candidate in
order; on select failure `continue`; on read success accept the candidate and
record it as the device's address. -/
def detectScan (b : Bus) (d : Dev) : BusState → List Nat → Bool × Dev × BusState
  | s, [] => (false, d, s)
  | s, a :: rest =>
    let (ok, s1) := set_address b s a
    if !ok then detectScan b d s1 rest
    else
      let (suc, _, s2) := read_byte_data b s1 MODE1
      if suc then (true, ⟨d.hasBus, some a, d.is_initialized⟩, s2)
      else detectScan b d s2 rest

/-- Python `PCA9685.detect`: with a truthy known address, select it and let one read
of `MODE1` decide; otherwise scan `POSSIBLE_ADDRESSES`. -/
def detect (b : Bus) (d : Dev) (s : BusState) : Bool × Dev × BusState :=
  if !d.hasBus then (false, d, s)
  else if addrTruthy d.address then
    let a := d.address.getD 0
    let (ok, s1) := set_address b s a
    if !ok then (false, d, s1)
    else
      let (suc, _, s2) := read_byte_data b s1 MODE1
      (suc, d, s2)
  else detectScan b d s POSSIBLE_ADDRESSES

/-- Python `PCA9685.set_pwm`: requires the initialized flag, requires
`0 ≤ channel ≤ 15`, clamps both ticks into `[0, 4095]` and writes the four
channel registers at `base + 4*channel`, short-circuiting on failure. -/
def set_pwm (b : Bus) (d : Dev) (s : BusState) (channel onT offT : Int) :
    Bool × BusState :=
  if !d.is_initialized then (false, s)
  else if channel < 0 || 15 < channel then (false, s)
  else
    let c := channel.toNat
    let onN := (pyClamp 4095 onT).toNat
    let offN := (pyClamp 4095 offT).toNat
    let (ok1, s1) := write_byte_data b s (LED0_ON_L + 4 * c) (onN &&& 0xFF)
    if !ok1 then (false, s1) else
    let (ok2, s2) := write_byte_data b s1 (LED0_ON_H + 4 * c) ((onN >>> 8) &&& 0xFF)
    if !ok2 then (false, s2) else
    let (ok3, s3) := write_byte_data b s2 (LED0_OFF_L + 4 * c) (offN &&& 0xFF)
    if !ok3 then (false, s3) else
    write_byte_data b s3 (LED0_OFF_H + 4 * c) ((offN >>> 8) &&& 0xFF)

end PCA9685

namespace HT16K33

/-- Device state of `HT16K33` (same `I2CDevice` fields). -/
structure Dev where
  hasBus : Bool
  address : Option Nat
  is_initialized : Bool
deriving DecidableEq

def CMD_STANDBY_MODE_DISABLE : Nat := 0x21
def CMD_DISPLAY_ENABLE : Nat := 0x81
def CMD_ROW_OUTPUT : Nat := 0xA0
def CMD_KEY_DATA_START : Nat := 0x40

def POSSIBLE_ADDRESSES : List Nat := [0x70, 0x71, 0x72, 0x73]

/-- The `TUBE_CHARS` segment table: character to `(reg1, reg2)` byte pair;
`none` for characters outside the table. -/
def TUBE_CHARS : Char → Option (Nat × Nat)
  | '0' => some (0xF8, 0x01)
  | '1' => some (0x30, 0x00)
  | '2' => some (0xD8, 0x02)
  | '3' => some (0x78, 0x02)
  | '4' => some (0x30, 0x03)
  | '5' => some (0x68, 0x03)
  | '6' => some (0xE8, 0x03)
  | '7' => some (0x38, 0x00)
  | '8' => some (0xF8, 0x03)
  | '9' => some (0x78, 0x03)
  | 'A' => some (0xB8, 0x03)
  | 'B' => some (0xE0, 0x03)
  | 'C' => some (0xC8, 0x01)
  | 'D' => some (0xF0, 0x02)
  | 'E' => some (0xC8, 0x03)
  | 'F' => some (0x88, 0x03)
  | '-' => some (0x00, 0x02)
  | '_' => some (0x00, 0x00)
  | _ => none

/-- The register loop of `HT16K33.clear`: write `0` to each register in turn,
aborting on the first failed write (`for reg in range(0x02, 0x0A)`). -/
def clearLoop (b : Bus) : BusState → List Nat → Bool × BusState
  | s, [] => (true, s)
  | s, r :: rs =>
    let (ok, s1) := write_byte_data b s r 0x00
    if !ok then (false, s1) else clearLoop b s1 rs

/-- Python `HT16K33.clear`: refuses while not initialized; otherwise zeroes the eight
digit registers `0x02`–`0x09`. -/
def clear (b : Bus) (d : Dev) (s : BusState) : Bool × BusState :=
  if !d.is_initialized then (false, s)
  else clearLoop b s [0x02, 0x03, 0x04, 0x05, 0x06, 0x07, 0x08, 0x09]

/-- Python `HT16K33.initialize`: guard on bus/address truthiness; write the
standby-wake command, then row-output, then call `clear()` with the result
*discarded* (as in the source: the call happens while `is_initialized` is
still false), then display-enable; set the initialized flag and return. -/
def init (b : Bus) (d : Dev) (s : BusState) : Bool × Dev × BusState :=
  if !d.hasBus || !addrTruthy d.address then (false, d, s)
  else
    let (ok1, s1) := write_byte b s CMD_STANDBY_MODE_DISABLE
    if !ok1 then (false, d, s1) else
    let (ok2, s2) := write_byte b s1 CMD_ROW_OUTPUT
    if !ok2 then (false, d, s2) else
    let (_, s3) := clear b d s2
    let (ok4, s4) := write_byte b s3 CMD_DISPLAY_ENABLE
    if !ok4 then (false, d, s4)
    else (true, ⟨d.hasBus, d.address, true⟩, s4)

/-- Python `HT16K33.detect`: with a truthy known address, select it and let one
`read_byte` decide; otherwise scan `POSSIBLE_ADDRESSES`.  The scan loop is
`detectScan` below. -/
def detectScan (b : Bus) (d : Dev) : BusState → List Nat → Bool × Dev × BusState
  | s, [] => (false, d, s)
  | s, a :: rest =>
    let (ok, s1) := set_address b s a
    if !ok then detectScan b d s1 rest
    else
      let (suc, _, s2) := read_byte b s1
      if suc then (true, ⟨d.hasBus, some a, d.is_initialized⟩, s2)
      else detectScan b d s2 rest

/-- Python `HT16K33.detect`. -/
def detect (b : Bus) (d : Dev) (s : BusState) : Bool × Dev × BusState :=
  if !d.hasBus then (false, d, s)
  else if addrTruthy d.address then
    let a := d.address.getD 0
    let (ok, s1) := set_address b s a
    if !ok then (false, d, s1)
    else
      let (suc, _, s2) := read_byte b s1
      (suc, d, s2)
  else detectScan b d s POSSIBLE_ADDRESSES

/-- Python `HT16K33.display_char_left`: requires the initialized flag and
`0 ≤ index ≤ 3`; a character outside `TUBE_CHARS` fails hard; otherwise two
writes at `reg_base = 0x02 + index*2`. -/
def display_char_left (b : Bus) (d : Dev) (s : BusState) (index : Int)
    (c : Char) : Bool × BusState :=
  if !d.is_initialized then (false, s)
  else if index < 0 || 3 < index then (false, s)
  else
    match TUBE_CHARS c with
    | none => (false, s)
    | some (r1, r2) =>
      let base := 0x02 + index.toNat * 2
      let (ok1, s1) := write_byte_data b s base r1
      if !ok1 then (false, s1) else write_byte_data b s1 (base + 1) r2

/-- Python `HT16K33.display_char_right`: as `display_char_left` but with
`reg_base = 0x08 - index*2` (right-anchored addressing). -/
def display_char_right (b : Bus) (d : Dev) (s : BusState) (index : Int)
    (c : Char) : Bool × BusState :=
  if !d.is_initialized then (false, s)
  else if index < 0 || 3 < index then (false, s)
  else
    match TUBE_CHARS c with
    | none => (false, s)
    | some (r1, r2) =>
      let base := 0x08 - index.toNat * 2
      let (ok1, s1) := write_byte_data b s base r1
      if !ok1 then (false, s1) else write_byte_data b s1 (base + 1) r2

/-- The display loop of `HT16K33.display_string`: `for i, char in
enumerate(...)` with a `break` at `i >= 4` (followed by `return True`), and an
early `return False` on a failed per-character call. -/
def dispLoop (b : Bus) (d : Dev) (right : Bool) :
    BusState → Nat → List Char → Bool × BusState
  | s, _, [] => (true, s)
  | s, i, c :: rest =>
    if 4 ≤ i then (true, s)
    else
      let p :=
        if right then display_char_right b d s ((i : Nat) : Int) c
        else display_char_left b d s ((i : Nat) : Int) c
      if !p.1 then (false, p.2) else dispLoop b d right p.2 (i + 1) rest

/-- Python `HT16K33.display_string`: requires the initialized flag; calls `clear()`
(result discarded), truncates the text to 4 characters, then iterates the
truncated text — reversed with right-anchored addressing when `align_right`,
in order with left-anchored addressing otherwise. -/
def display_string (b : Bus) (d : Dev) (s : BusState) (text : List Char)
    (align_right : Bool) : Bool × BusState :=
  if !d.is_initialized then (false, s)
  else
    let pc := clear b d s
    let t := text.take 4
    if align_right then dispLoop b d true pc.2 0 t.reverse
    else dispLoop b d false pc.2 0 t

/-- The key decode of `HT16K33.read_key` (identical, line for line, to the
decode in `S1KeyPad.get_key`, `devices_manager/s1.py` lines 109–134): a nested
if/elif chain over bits `0x01, 0x02, 0x04, 0x08` of bytes 0, 2, 4 of the
6-byte block; `0` when no condition matches.  Python `values[k]` is modelled
with `List.getD` (in range for the 6-byte blocks the callers pass). -/
def keyDecode (v : List Nat) : Nat :=
  if v.getD 0 0 &&& 0x01 != 0 then 1
  else if v.getD 2 0 &&& 0x01 != 0 then 2
  else if v.getD 4 0 &&& 0x01 != 0 then 3
  else if v.getD 0 0 &&& 0x02 != 0 then 4
  else if v.getD 2 0 &&& 0x02 != 0 then 5
  else if v.getD 4 0 &&& 0x02 != 0 then 6
  else if v.getD 0 0 &&& 0x04 != 0 then 7
  else if v.getD 2 0 &&& 0x04 != 0 then 8
  else if v.getD 4 0 &&& 0x04 != 0 then 9
  else if v.getD 0 0 &&& 0x08 != 0 then 10
  else if v.getD 2 0 &&& 0x08 != 0 then 11
  else if v.getD 4 0 &&& 0x08 != 0 then 12
  else 0

/-- Python `HT16K33.read_key`: requires the initialized flag; reads a 6-byte block at
`CMD_KEY_DATA_START` and decodes it with `keyDecode`. -/
def read_key (b : Bus) (d : Dev) (s : BusState) : Bool × Nat × BusState :=
  if !d.is_initialized then (false, 0, s)
  else
    let (suc, values, s1) := read_block_data b s CMD_KEY_DATA_START 6
    if !suc then (false, 0, s1)
    else (true, keyDecode values, s1)

end HT16K33

namespace S1KeyPad

/-- Device state of `S1KeyPad` (`devices_manager/s1.py`). -/
structure Dev where
  hasI2c : Bool
  address : Option Nat
  is_initialized : Bool
deriving DecidableEq

def KEY_KS0 : Nat := 0x40
def KEY_REG_NUM : Nat := 6

/-- Python `S1KeyPad.get_key`: requires the initialized flag; reads a 6-byte block at
`KEY_KS0` and decodes it with the same if/elif chain as `HT16K33.read_key`
(embedded once as `HT16K33.keyDecode`; the two Python decode bodies are
textually identical). -/
def get_key (b : Bus) (d : Dev) (s : BusState) : Bool × Nat × BusState :=
  if !d.is_initialized then (false, 0, s)
  else
    let (suc, values, s1) := read_block_data b s KEY_KS0 KEY_REG_NUM
    if !suc then (false, 0, s1)
    else (true, HT16K33.keyDecode values, s1)

end S1KeyPad

namespace E2PCA9685

/-- Device state of `E2PCA9685` (`i2c_lib/e2_pca9685.py`): i2c reference
(present or `None`), optional address, initialized flag. -/
structure Dev where
  hasI2c : Bool
  address : Option Nat
  is_initialized : Bool
deriving DecidableEq

def MODE1 : Nat := 0x00
def CH0_ON_L : Nat := 0x06
def CH0_ON_H : Nat := 0x07
def CH0_OFF_L : Nat := 0x08
def CH0_OFF_H : Nat := 0x09
def ALLCH_ON_L : Nat := 0xFA
def ALLCH_ON_H : Nat := 0xFB
def ALLCH_OFF_L : Nat := 0xFC
def ALLCH_OFF_H : Nat := 0xFD

def POSSIBLE_ADDRESSES : List Nat := [0x64, 0x65, 0x66, 0x67]

/-- Python `E2PCA9685.set_all_pwm`: refuses only when *both* the initialized flag is
false *and* the address is `None` (Python `is None`, not truthiness);
otherwise clamps and issues the four broadcast-register writes,
short-circuiting on the first failure.  The `try/except` wrapper is dead in
this model (no primitive raises). -/
def set_all_pwm (b : Bus) (d : Dev) (s : BusState) (onT offT : Int) :
    Bool × BusState :=
  if !d.is_initialized && d.address == none then (false, s)
  else
    let onN := (pyClamp 4095 onT).toNat
    let offN := (pyClamp 4095 offT).toNat
    let (ok1, s1) := write_byte_data b s ALLCH_ON_L (onN &&& 0xFF)
    if !ok1 then (false, s1) else
    let (ok2, s2) := write_byte_data b s1 ALLCH_ON_H ((onN >>> 8) &&& 0xFF)
    if !ok2 then (false, s2) else
    let (ok3, s3) := write_byte_data b s2 ALLCH_OFF_L (offN &&& 0xFF)
    if !ok3 then (false, s3) else
    write_byte_data b s3 ALLCH_OFF_H ((offN >>> 8) &&& 0xFF)

/-- Python `E2PCA9685.set_pwm`: requires the initialized flag and `0 ≤ channel ≤ 15`;
clamps both ticks and writes the four channel registers at `base + 4*channel`,
short-circuiting on failure. -/
def set_pwm (b : Bus) (d : Dev) (s : BusState) (channel onT offT : Int) :
    Bool × BusState :=
  if !d.is_initialized then (false, s)
  else if channel < 0 || 15 < channel then (false, s)
  else
    let c := channel.toNat
    let onN := (pyClamp 4095 onT).toNat
    let offN := (pyClamp 4095 offT).toNat
    let (ok1, s1) := write_byte_data b s (CH0_ON_L + 4 * c) (onN &&& 0xFF)
    if !ok1 then (false, s1) else
    let (ok2, s2) := write_byte_data b s1 (CH0_ON_H + 4 * c) ((onN >>> 8) &&& 0xFF)
    if !ok2 then (false, s2) else
    let (ok3, s3) := write_byte_data b s2 (CH0_OFF_L + 4 * c) (offN &&& 0xFF)
    if !ok3 then (false, s3) else
    write_byte_data b s3 (CH0_OFF_H + 4 * c) ((offN >>> 8) &&& 0xFF)

/-- Python `E2PCA9685.initialize`: guard on i2c/address truthiness; write
`MODE1 := 0` (abort on failure), then `set_all_pwm(0, 0)` with the result
*checked* (abort on failure) — it runs while `is_initialized` is still false,
which `set_all_pwm`'s weaker guard permits since the address is set — then set
the initialized flag. -/
def init (b : Bus) (d : Dev) (s : BusState) : Bool × Dev × BusState :=
  if !d.hasI2c || !addrTruthy d.address then (false, d, s)
  else
    let w := write_byte_data b s MODE1 0x00
    if !w.1 then (false, d, w.2) else
    let p := set_all_pwm b d w.2 0 0
    if !p.1 then (false, d, p.2)
    else (true, ⟨d.hasI2c, d.address, true⟩, p.2)

/-- Python `E2PCA9685.set_fan_speed`: requires the initialized flag; clamps the speed
level into `[0, 100]`, computes `off = on + int(0xFFF * speed_level / 100)`
with `on = 0`, and delegates to `set_pwm` on channel 0.

Python evaluates `0xFFF * speed_level / 100` in double-precision floating
point and truncates with `int(...)`.  For every clamped level `sl ∈ [0,100]`
the product `4095 * sl ≤ 409500` is exactly representable, the quotient's
distance to any integer it is not equal to is at least `1/100`, and the
rounding error of the division is below `5·10⁻¹¹`, so `int(...)` equals the
exact floor — i.e. Nat floor division `4095 * sl / 100`. -/
def set_fan_speed (b : Bus) (d : Dev) (s : BusState) (speed_level : Int) :
    Bool × BusState :=
  if !d.is_initialized then (false, s)
  else
    let sl := (pyClamp 100 speed_level).toNat
    let onN : Nat := 0
    let offN : Nat := onN + 0xFFF * sl / 100
    set_pwm b d s 0 (Int.ofNat onN) (Int.ofNat offN)

end E2PCA9685

namespace E1DeviceManager

/-- Python `E1DeviceManager.set_led_color` (`devices_manager/e1.py`), applied to the
`PCA9685` instance the manager's `get_led` lookup produced (`none` when no LED
device was found): clamps each component into `[0, 255]`, then chains
`set_pwm` on channels 0, 1, 2 with on-tick `0x0F` and off-tick
`0x0F + component*16`, short-circuiting on the first failure (Python `and`). -/
def set_led_color (b : Bus) (led : Option PCA9685.Dev) (s : BusState)
    (red green blue : Int) : Bool × BusState :=
  match led with
  | none => (false, s)
  | some dev =>
    let r := pyClamp 255 red
    let g := pyClamp 255 green
    let bl := pyClamp 255 blue
    let onT : Int := 0x0F
    let p1 := PCA9685.set_pwm b dev s 0 onT (onT + r * 16)
    if !p1.1 then (false, p1.2) else
    let p2 := PCA9685.set_pwm b dev p1.2 1 onT (onT + g * 16)
    if !p2.1 then (false, p2.2) else
    PCA9685.set_pwm b dev p2.2 2 onT (onT + bl * 16)

end E1DeviceManager

/-! ## Specification-side definitions and concrete fixtures -/

/-- First-match selection over an ordered list of `(condition, key)` pairs,
`0` when nothing matches.  Used to phrase the spec's fixed priority order for
the keypad decode. -/
def firstHit : List (Bool × Nat) → Nat
  | [] => 0
  | (c, k) :: rest => if c then k else firstHit rest

/-- Modelled from the spec: the keypad decode as the spec words it — the
lowest-numbered key in the fixed priority order `1..12` whose `(byte, bit)`
condition holds (bits `0x01, 0x02, 0x04, 0x08` of bytes 0, 2, 4), key `0`
when no condition holds.  Compared against the source decode `keyDecode`. -/
def keyPriorityDecode (v : List Nat) : Nat :=
  firstHit
    [(v.getD 0 0 &&& 0x01 != 0, 1), (v.getD 2 0 &&& 0x01 != 0, 2),
     (v.getD 4 0 &&& 0x01 != 0, 3), (v.getD 0 0 &&& 0x02 != 0, 4),
     (v.getD 2 0 &&& 0x02 != 0, 5), (v.getD 4 0 &&& 0x02 != 0, 6),
     (v.getD 0 0 &&& 0x04 != 0, 7), (v.getD 2 0 &&& 0x04 != 0, 8),
     (v.getD 4 0 &&& 0x04 != 0, 9), (v.getD 0 0 &&& 0x08 != 0, 10),
     (v.getD 2 0 &&& 0x08 != 0, 11), (v.getD 4 0 &&& 0x08 != 0, 12)]

/-- Nearest-integer division rounding half up, the `round(a / b)` of the
spec's fan-speed formula.  At the inputs where it is invoked below the
quotient is not a half-integer tie, so every rounding convention (half-up,
half-even as Python's `round`) yields the same value. -/
def roundDiv (a b : Nat) : Nat := (a + b / 2) / b

/-- Candidate answers a probe on the PCA9685 scan: its address select
succeeds and the subsequent `MODE1` register read succeeds. -/
def pcaAnswers (b : Bus) (a : Nat) : Bool :=
  b.setOk a && b.rDataOk (some a) PCA9685.MODE1

/-- The bus operations attempted by the PCA9685 scan loop on a run of
candidates none of which answers. -/
def pcaTrail (b : Bus) : List Nat → List BusOp
  | [] => []
  | x :: rest =>
    (if b.setOk x then [BusOp.setAddr x, BusOp.rData PCA9685.MODE1]
     else [BusOp.setAddr x]) ++ pcaTrail b rest

/-- Candidate answers a probe on the HT16K33 scan: its address select
succeeds and the subsequent byte read succeeds. -/
def htAnswers (b : Bus) (a : Nat) : Bool :=
  b.setOk a && b.rByteOk (some a)

/-- The bus operations attempted by the HT16K33 scan loop on a run of
candidates none of which answers. -/
def htTrail (b : Bus) : List Nat → List BusOp
  | [] => []
  | x :: rest =>
    (if b.setOk x then [BusOp.setAddr x, BusOp.rByte]
     else [BusOp.setAddr x]) ++ htTrail b rest

/-- The eight digit-register clearing writes of a successful
`HT16K33.clear`. -/
def clearWrites : List BusOp :=
  [.wData 0x02 0, .wData 0x03 0, .wData 0x04 0, .wData 0x05 0,
   .wData 0x06 0, .wData 0x07 0, .wData 0x08 0, .wData 0x09 0]

/-- A bus on which every operation succeeds and every read returns zero. -/
def busAll : Bus :=
  ⟨fun _ => true, fun _ _ => true, fun _ => true, fun _ => 0,
   fun _ _ _ => true, fun _ _ => true, fun _ _ => 0,
   fun _ _ => true, fun _ _ n => List.replicate n 0⟩

/-- A bus on which every operation fails. -/
def busDead : Bus :=
  ⟨fun _ => false, fun _ _ => false, fun _ => false, fun _ => 0,
   fun _ _ _ => false, fun _ _ => false, fun _ _ => 0,
   fun _ _ => false, fun _ _ _ => []⟩

/-- A bus on which address selects and writes succeed, but register reads
answer only at address `0x62` and byte reads only at address `0x72`. -/
def busProbe : Bus :=
  ⟨fun _ => true, fun _ _ => true, fun c => c == some 0x72, fun _ => 0,
   fun _ _ _ => true, fun c _ => c == some 0x62, fun _ _ => 0,
   fun _ _ => true, fun _ _ n => List.replicate n 0⟩

/-- The initial bus state: no address selected, empty log. -/
def bs0 : BusState := ⟨none, []⟩

/-- A freshly constructed PCA9685 with bus and address set, not yet
initialized. -/
def pcaFresh : PCA9685.Dev := ⟨true, some 0x60, false⟩

/-- A PCA9685 in the Ready state. -/
def pcaReady : PCA9685.Dev := ⟨true, some 0x60, true⟩

/-- A freshly constructed HT16K33 with bus and address set, not yet
initialized. -/
def htFresh : HT16K33.Dev := ⟨true, some 0x70, false⟩

/-- An HT16K33 in the Ready state. -/
def htReady : HT16K33.Dev := ⟨true, some 0x70, true⟩

/-- A fresh E2 PCA9685 with i2c and address set, not yet initialized. -/
def e2Fresh : E2PCA9685.Dev := ⟨true, some 0x64, false⟩

/-- An E2 PCA9685 in the Ready state. -/
def e2Ready : E2PCA9685.Dev := ⟨true, some 0x64, true⟩

/-! ## Claim theorems -/

/-- C2: the claim says `PCA9685.initialize` zeroes all channels through the
four broadcast registers and returns success only if every write of the
sequence succeeds.  The code does not: on a perfect bus, `initialize` returns
`True` and sets the initialized flag after writing only the mode register —
the `set_all_pwm(0, 0)` sub-call refuses (the initialized flag is still false
at that point) without touching the bus, and its `False` result is discarded.
This theorem evaluates the model at that failing input. -/
theorem C2_init_skips_broadcast_zeroing :
    (PCA9685.init busAll pcaFresh bs0).1 = true ∧
    (PCA9685.init busAll pcaFresh bs0).2.1.is_initialized = true ∧
    (PCA9685.init busAll pcaFresh bs0).2.2.log = [BusOp.wData PCA9685.MODE1 0] ∧
    (PCA9685.set_all_pwm busAll pcaFresh bs0 0 0).1 = false := by
  decide

/-- C9: the claim says `HT16K33.initialize` clears the eight digit registers
and aborts on any failed step.  The code does not clear them: on a perfect
bus, `initialize` returns `True` after the three command writes only — the
`clear()` sub-call refuses (the initialized flag is still false at that
point) without writing any digit register, and its `False` result is
discarded.  This theorem evaluates the model at that failing input. -/
theorem C9_init_skips_digit_clearing :
    (HT16K33.init busAll htFresh bs0).1 = true ∧
    (HT16K33.init busAll htFresh bs0).2.1.is_initialized = true ∧
    (HT16K33.init busAll htFresh bs0).2.2.log =
      [BusOp.wByte 0x21, BusOp.wByte 0xA0, BusOp.wByte 0x81] ∧
    (HT16K33.clear busAll htFresh bs0).1 = false := by
  decide

/-- C1, counterexample: at `speed_level = 1` on a Ready device over a perfect
bus, `set_fan_speed` writes off-tick `40` (`int(4095*1/100)` truncates),
whereas the claim's `round(4095*1/100)` is `41` — the value `40.95` is not a
tie, so every rounding convention gives `41`. -/
theorem C1_fan_speed_round_counterexample :
    (E2PCA9685.set_fan_speed busAll e2Ready bs0 1).1 = true ∧
    (E2PCA9685.set_fan_speed busAll e2Ready bs0 1).2.log =
      [BusOp.wData 0x06 0, BusOp.wData 0x07 0,
       BusOp.wData 0x08 40, BusOp.wData 0x09 0] ∧
    roundDiv (4095 * 1) 100 = 41 ∧
    BusOp.wData 0x08 (roundDiv (4095 * 1) 100) ∉
      (E2PCA9685.set_fan_speed busAll e2Ready bs0 1).2.log := by
  decide

/-! ## Helper lemmas -/

theorem pyClamp_toNat_of_le (hi : Int) (n : Nat) (h : (n : Int) ≤ hi) :
    (pyClamp hi (Int.ofNat n)).toNat = n := by
  simp only [pyClamp, Int.ofNat_eq_coe]
  omega

theorem pyClamp_toNat_le (m : Nat) (x : Int) :
    (pyClamp (Int.ofNat m) x).toNat ≤ m := by
  simp only [pyClamp, Int.ofNat_eq_coe]
  omega

theorem pca_set_pwm_spec (b : Bus) (d : PCA9685.Dev) (s : BusState)
    (ch onT offT : Int) (hinit : d.is_initialized = true)
    (h0 : 0 ≤ ch) (h15 : ch ≤ 15) :
    (PCA9685.set_pwm b d s ch onT offT).1 =
      (b.wDataOk s.cur (6 + 4 * ch.toNat) ((pyClamp 4095 onT).toNat &&& 0xFF) &&
       b.wDataOk s.cur (7 + 4 * ch.toNat) (((pyClamp 4095 onT).toNat >>> 8) &&& 0xFF) &&
       b.wDataOk s.cur (8 + 4 * ch.toNat) ((pyClamp 4095 offT).toNat &&& 0xFF) &&
       b.wDataOk s.cur (9 + 4 * ch.toNat) (((pyClamp 4095 offT).toNat >>> 8) &&& 0xFF)) ∧
    (PCA9685.set_pwm b d s ch onT offT).2.cur = s.cur ∧
    ((PCA9685.set_pwm b d s ch onT offT).1 = true →
      (PCA9685.set_pwm b d s ch onT offT).2.log =
        s.log ++
          [.wData (6 + 4 * ch.toNat) ((pyClamp 4095 onT).toNat &&& 0xFF),
           .wData (7 + 4 * ch.toNat) (((pyClamp 4095 onT).toNat >>> 8) &&& 0xFF),
           .wData (8 + 4 * ch.toNat) ((pyClamp 4095 offT).toNat &&& 0xFF),
           .wData (9 + 4 * ch.toNat) (((pyClamp 4095 offT).toNat >>> 8) &&& 0xFF)]) := by
  have hch : ¬(ch < 0 || 15 < ch) = true := by
    simp only [Bool.or_eq_true, decide_eq_true_eq]
    omega
  simp only [PCA9685.set_pwm, PCA9685.LED0_ON_L, PCA9685.LED0_ON_H,
    PCA9685.LED0_OFF_L, PCA9685.LED0_OFF_H, write_byte_data, hinit,
    Bool.not_true, if_neg hch]
  cases hw1 : b.wDataOk s.cur (6 + 4 * ch.toNat) ((pyClamp 4095 onT).toNat &&& 0xFF) <;>
    cases hw2 : b.wDataOk s.cur (7 + 4 * ch.toNat) (((pyClamp 4095 onT).toNat >>> 8) &&& 0xFF) <;>
      cases hw3 : b.wDataOk s.cur (8 + 4 * ch.toNat) ((pyClamp 4095 offT).toNat &&& 0xFF) <;>
        cases hw4 : b.wDataOk s.cur (9 + 4 * ch.toNat) (((pyClamp 4095 offT).toNat >>> 8) &&& 0xFF) <;>
          simp [hw1, hw2, hw3, hw4]

theorem e2_set_pwm_spec (b : Bus) (d : E2PCA9685.Dev) (s : BusState)
    (ch onT offT : Int) (hinit : d.is_initialized = true)
    (h0 : 0 ≤ ch) (h15 : ch ≤ 15) :
    (E2PCA9685.set_pwm b d s ch onT offT).1 =
      (b.wDataOk s.cur (6 + 4 * ch.toNat) ((pyClamp 4095 onT).toNat &&& 0xFF) &&
       b.wDataOk s.cur (7 + 4 * ch.toNat) (((pyClamp 4095 onT).toNat >>> 8) &&& 0xFF) &&
       b.wDataOk s.cur (8 + 4 * ch.toNat) ((pyClamp 4095 offT).toNat &&& 0xFF) &&
       b.wDataOk s.cur (9 + 4 * ch.toNat) (((pyClamp 4095 offT).toNat >>> 8) &&& 0xFF)) ∧
    (E2PCA9685.set_pwm b d s ch onT offT).2.cur = s.cur ∧
    ((E2PCA9685.set_pwm b d s ch onT offT).1 = true →
      (E2PCA9685.set_pwm b d s ch onT offT).2.log =
        s.log ++
          [.wData (6 + 4 * ch.toNat) ((pyClamp 4095 onT).toNat &&& 0xFF),
           .wData (7 + 4 * ch.toNat) (((pyClamp 4095 onT).toNat >>> 8) &&& 0xFF),
           .wData (8 + 4 * ch.toNat) ((pyClamp 4095 offT).toNat &&& 0xFF),
           .wData (9 + 4 * ch.toNat) (((pyClamp 4095 offT).toNat >>> 8) &&& 0xFF)]) := by
  have hch : ¬(ch < 0 || 15 < ch) = true := by
    simp only [Bool.or_eq_true, decide_eq_true_eq]
    omega
  simp only [E2PCA9685.set_pwm, E2PCA9685.CH0_ON_L, E2PCA9685.CH0_ON_H,
    E2PCA9685.CH0_OFF_L, E2PCA9685.CH0_OFF_H, write_byte_data, hinit,
    Bool.not_true, if_neg hch]
  cases hw1 : b.wDataOk s.cur (6 + 4 * ch.toNat) ((pyClamp 4095 onT).toNat &&& 0xFF) <;>
    cases hw2 : b.wDataOk s.cur (7 + 4 * ch.toNat) (((pyClamp 4095 onT).toNat >>> 8) &&& 0xFF) <;>
      cases hw3 : b.wDataOk s.cur (8 + 4 * ch.toNat) ((pyClamp 4095 offT).toNat &&& 0xFF) <;>
        cases hw4 : b.wDataOk s.cur (9 + 4 * ch.toNat) (((pyClamp 4095 offT).toNat >>> 8) &&& 0xFF) <;>
          simp [hw1, hw2, hw3, hw4]

theorem e2_set_all_pwm_spec (b : Bus) (d : E2PCA9685.Dev) (s : BusState)
    (onT offT : Int) (a : Nat) (ha : d.address = some a) :
    (E2PCA9685.set_all_pwm b d s onT offT).1 =
      (b.wDataOk s.cur 0xFA ((pyClamp 4095 onT).toNat &&& 0xFF) &&
       b.wDataOk s.cur 0xFB (((pyClamp 4095 onT).toNat >>> 8) &&& 0xFF) &&
       b.wDataOk s.cur 0xFC ((pyClamp 4095 offT).toNat &&& 0xFF) &&
       b.wDataOk s.cur 0xFD (((pyClamp 4095 offT).toNat >>> 8) &&& 0xFF)) ∧
    (E2PCA9685.set_all_pwm b d s onT offT).2.cur = s.cur ∧
    ((E2PCA9685.set_all_pwm b d s onT offT).1 = true →
      (E2PCA9685.set_all_pwm b d s onT offT).2.log =
        s.log ++
          [.wData 0xFA ((pyClamp 4095 onT).toNat &&& 0xFF),
           .wData 0xFB (((pyClamp 4095 onT).toNat >>> 8) &&& 0xFF),
           .wData 0xFC ((pyClamp 4095 offT).toNat &&& 0xFF),
           .wData 0xFD (((pyClamp 4095 offT).toNat >>> 8) &&& 0xFF)]) := by
  simp only [E2PCA9685.set_all_pwm, E2PCA9685.ALLCH_ON_L, E2PCA9685.ALLCH_ON_H,
    E2PCA9685.ALLCH_OFF_L, E2PCA9685.ALLCH_OFF_H, write_byte_data, ha]
  cases hw1 : b.wDataOk s.cur 0xFA ((pyClamp 4095 onT).toNat &&& 0xFF) <;>
    cases hw2 : b.wDataOk s.cur 0xFB (((pyClamp 4095 onT).toNat >>> 8) &&& 0xFF) <;>
      cases hw3 : b.wDataOk s.cur 0xFC ((pyClamp 4095 offT).toNat &&& 0xFF) <;>
        cases hw4 : b.wDataOk s.cur 0xFD (((pyClamp 4095 offT).toNat >>> 8) &&& 0xFF) <;>
          simp [hw1, hw2, hw3, hw4]

theorem pca_detect_known (b : Bus) (d : PCA9685.Dev) (s : BusState) (a : Nat)
    (hb : d.hasBus = true) (hA : d.address = some a) (ha : a ≠ 0) :
    (PCA9685.detect b d s).1 = (b.setOk a && b.rDataOk (some a) PCA9685.MODE1) ∧
    (PCA9685.detect b d s).2.1 = d ∧
    (PCA9685.detect b d s).2.2.log =
      s.log ++ (if b.setOk a then [BusOp.setAddr a, BusOp.rData PCA9685.MODE1]
                else [BusOp.setAddr a]) := by
  simp only [PCA9685.detect, hb, hA, addrTruthy, set_address, read_byte_data,
    Option.getD_some, Bool.not_true, bne_iff_ne, ne_eq, ha, not_false_eq_true, if_true]
  cases hs : b.setOk a <;> simp [hs]

theorem ht_detect_known (b : Bus) (d : HT16K33.Dev) (s : BusState) (a : Nat)
    (hb : d.hasBus = true) (hA : d.address = some a) (ha : a ≠ 0) :
    (HT16K33.detect b d s).1 = (b.setOk a && b.rByteOk (some a)) ∧
    (HT16K33.detect b d s).2.1 = d ∧
    (HT16K33.detect b d s).2.2.log =
      s.log ++ (if b.setOk a then [BusOp.setAddr a, BusOp.rByte]
                else [BusOp.setAddr a]) := by
  simp only [HT16K33.detect, hb, hA, addrTruthy, set_address, read_byte,
    Option.getD_some, Bool.not_true, bne_iff_ne, ne_eq, ha, not_false_eq_true, if_true]
  cases hs : b.setOk a <;> simp [hs]

theorem pca_scan_none (b : Bus) (d : PCA9685.Dev) (P : List Nat) :
    ∀ s : BusState, P.find? (pcaAnswers b) = none →
      (PCA9685.detectScan b d s P).1 = false ∧
      (PCA9685.detectScan b d s P).2.1 = d ∧
      (PCA9685.detectScan b d s P).2.2.log = s.log ++ pcaTrail b P := by
  induction P with
  | nil => intro s _; simp [PCA9685.detectScan, pcaTrail]
  | cons x rest ih =>
    intro s h
    have hpx : pcaAnswers b x = false := by
      cases hpx : pcaAnswers b x
      · rfl
      · rw [List.find?_cons_of_pos _ hpx] at h; exact absurd h (by simp)
    have hrest : rest.find? (pcaAnswers b) = none := by
      rwa [List.find?_cons_of_neg _ (by simp [hpx])] at h
    cases hset : b.setOk x with
    | false =>
      have := ih ⟨s.cur, s.log ++ [BusOp.setAddr x]⟩ hrest
      simp only [PCA9685.detectScan, set_address, hset, Bool.false_eq_true,
        if_false, Bool.not_false, if_true, pcaTrail] at this ⊢
      simp [this, hset]
    | true =>
      have hrd : b.rDataOk (some x) PCA9685.MODE1 = false := by
        simpa [pcaAnswers, hset] using hpx
      have := ih ⟨some x, s.log ++ [BusOp.setAddr x, BusOp.rData PCA9685.MODE1]⟩ hrest
      simp only [PCA9685.detectScan, set_address, read_byte_data, hset, hrd,
        pcaTrail] at this ⊢
      simp [this, hset, hrd, List.append_assoc]

theorem pca_scan_found (b : Bus) (d : PCA9685.Dev) (P : List Nat) :
    ∀ (s : BusState) (a : Nat), P.find? (pcaAnswers b) = some a →
      (PCA9685.detectScan b d s P).1 = true ∧
      (PCA9685.detectScan b d s P).2.1 = ⟨d.hasBus, some a, d.is_initialized⟩ ∧
      (PCA9685.detectScan b d s P).2.2.log =
        s.log ++ pcaTrail b (P.takeWhile fun x => !pcaAnswers b x) ++
          [BusOp.setAddr a, BusOp.rData PCA9685.MODE1] := by
  induction P with
  | nil => intro s a h; simp at h
  | cons x rest ih =>
    intro s a h
    cases hpx : pcaAnswers b x with
    | true =>
      have hax : x = a := by
        rw [List.find?_cons_of_pos _ hpx] at h
        exact Option.some_injective _ h
      subst hax
      have hset : b.setOk x = true := (Bool.and_eq_true .. |>.mp hpx).1
      have hrd : b.rDataOk (some x) PCA9685.MODE1 = true := (Bool.and_eq_true .. |>.mp hpx).2
      simp [PCA9685.detectScan, set_address, read_byte_data, hset, hrd,
        List.takeWhile_cons, hpx, pcaTrail]
    | false =>
      have hrest : rest.find? (pcaAnswers b) = some a := by
        rwa [List.find?_cons_of_neg _ (by simp [hpx])] at h
      cases hset : b.setOk x with
      | false =>
        have := ih ⟨s.cur, s.log ++ [BusOp.setAddr x]⟩ a hrest
        simp only [PCA9685.detectScan, set_address, hset,
          List.takeWhile_cons, hpx, pcaTrail] at this ⊢
        simp only [Bool.false_eq_true, if_false, Bool.not_false, if_true] at this ⊢
        simp [this, hset]
      | true =>
        have hrd : b.rDataOk (some x) PCA9685.MODE1 = false := by
          simpa [pcaAnswers, hset] using hpx
        have := ih ⟨some x, s.log ++ [BusOp.setAddr x, BusOp.rData PCA9685.MODE1]⟩ a hrest
        simp only [PCA9685.detectScan, set_address, read_byte_data, hset, hrd,
          List.takeWhile_cons, hpx, pcaTrail] at this ⊢
        simp [this, hset, hrd, List.append_assoc]

theorem ht_scan_none (b : Bus) (d : HT16K33.Dev) (P : List Nat) :
    ∀ s : BusState, P.find? (htAnswers b) = none →
      (HT16K33.detectScan b d s P).1 = false ∧
      (HT16K33.detectScan b d s P).2.1 = d ∧
      (HT16K33.detectScan b d s P).2.2.log = s.log ++ htTrail b P := by
  induction P with
  | nil => intro s _; simp [HT16K33.detectScan, htTrail]
  | cons x rest ih =>
    intro s h
    have hpx : htAnswers b x = false := by
      cases hpx : htAnswers b x
      · rfl
      · rw [List.find?_cons_of_pos _ hpx] at h; exact absurd h (by simp)
    have hrest : rest.find? (htAnswers b) = none := by
      rwa [List.find?_cons_of_neg _ (by simp [hpx])] at h
    cases hset : b.setOk x with
    | false =>
      have := ih ⟨s.cur, s.log ++ [BusOp.setAddr x]⟩ hrest
      simp only [HT16K33.detectScan, set_address, hset, Bool.false_eq_true,
        if_false, Bool.not_false, if_true, htTrail] at this ⊢
      simp [this, hset]
    | true =>
      have hrd : b.rByteOk (some x) = false := by
        simpa [htAnswers, hset] using hpx
      have := ih ⟨some x, s.log ++ [BusOp.setAddr x, BusOp.rByte]⟩ hrest
      simp only [HT16K33.detectScan, set_address, read_byte, hset, hrd,
        htTrail] at this ⊢
      simp [this, hset, hrd, List.append_assoc]

theorem ht_scan_found (b : Bus) (d : HT16K33.Dev) (P : List Nat) :
    ∀ (s : BusState) (a : Nat), P.find? (htAnswers b) = some a →
      (HT16K33.detectScan b d s P).1 = true ∧
      (HT16K33.detectScan b d s P).2.1 = ⟨d.hasBus, some a, d.is_initialized⟩ ∧
      (HT16K33.detectScan b d s P).2.2.log =
        s.log ++ htTrail b (P.takeWhile fun x => !htAnswers b x) ++
          [BusOp.setAddr a, BusOp.rByte] := by
  induction P with
  | nil => intro s a h; simp at h
  | cons x rest ih =>
    intro s a h
    cases hpx : htAnswers b x with
    | true =>
      have hax : x = a := by
        rw [List.find?_cons_of_pos _ hpx] at h
        exact Option.some_injective _ h
      subst hax
      have hset : b.setOk x = true := (Bool.and_eq_true .. |>.mp hpx).1
      have hrd : b.rByteOk (some x) = true := (Bool.and_eq_true .. |>.mp hpx).2
      simp [HT16K33.detectScan, set_address, read_byte, hset, hrd,
        List.takeWhile_cons, hpx, htTrail]
    | false =>
      have hrest : rest.find? (htAnswers b) = some a := by
        rwa [List.find?_cons_of_neg _ (by simp [hpx])] at h
      cases hset : b.setOk x with
      | false =>
        have := ih ⟨s.cur, s.log ++ [BusOp.setAddr x]⟩ a hrest
        simp only [HT16K33.detectScan, set_address, hset,
          List.takeWhile_cons, hpx, htTrail] at this ⊢
        simp only [Bool.false_eq_true, if_false, Bool.not_false, if_true] at this ⊢
        simp [this, hset]
      | true =>
        have hrd : b.rByteOk (some x) = false := by
          simpa [htAnswers, hset] using hpx
        have := ih ⟨some x, s.log ++ [BusOp.setAddr x, BusOp.rByte]⟩ a hrest
        simp only [HT16K33.detectScan, set_address, read_byte, hset, hrd,
          List.takeWhile_cons, hpx, htTrail] at this ⊢
        simp [this, hset, hrd, List.append_assoc]

theorem pcaTrail_mem (b : Bus) (a : Nat) (P : List Nat) (hmem : a ∈ P) :
    BusOp.setAddr a ∈ pcaTrail b P := by
  induction P with
  | nil => simp at hmem
  | cons x rest ih =>
    rcases List.mem_cons.mp hmem with h | h
    · subst h
      cases hs : b.setOk a <;> simp [pcaTrail, hs]
    · cases hs : b.setOk x <;> simp [pcaTrail, hs, ih h]

theorem htTrail_mem (b : Bus) (a : Nat) (P : List Nat) (hmem : a ∈ P) :
    BusOp.setAddr a ∈ htTrail b P := by
  induction P with
  | nil => simp at hmem
  | cons x rest ih =>
    rcases List.mem_cons.mp hmem with h | h
    · subst h
      cases hs : b.setOk a <;> simp [htTrail, hs]
    · cases hs : b.setOk x <;> simp [htTrail, hs, ih h]

/-- C5: probe policy of `detect`, for both `PCA9685` and `HT16K33`.  With a
known (truthy) address, detect selects that address and attempts exactly one
read whose success is AND-ed with the select outcome — the log extension shows
the single select and single read, and no other address is ever selected, so
the candidate pool is never scanned.  With no known address, detect runs the
pool scan: `find?` picks the first candidate whose select-and-read answers;
the log is exactly the probes of the non-answering prefix (`takeWhile`,
declared order) followed by the accepted candidate's probe — so the remaining
candidates are never tried — and the device records the accepted address.
When no candidate answers, the result is false, the device is unchanged, and
the log shows every candidate of the pool was probed (`setAddr` for each pool
member occurs in the trail). -/
theorem C5_detect_probe_policy :
    (∀ (b : Bus) (d : PCA9685.Dev) (s : BusState) (a : Nat),
      d.hasBus = true → d.address = some a → a ≠ 0 →
        ((PCA9685.detect b d s).1 = (b.setOk a && b.rDataOk (some a) PCA9685.MODE1) ∧
         (PCA9685.detect b d s).2.1 = d ∧
         (PCA9685.detect b d s).2.2.log =
           s.log ++ (if b.setOk a then [BusOp.setAddr a, BusOp.rData PCA9685.MODE1]
                     else [BusOp.setAddr a]) ∧
         (∀ p, BusOp.setAddr p ∈ (PCA9685.detect b d s).2.2.log →
            BusOp.setAddr p ∈ s.log ∨ p = a))) ∧
    (∀ (b : Bus) (d : PCA9685.Dev) (s : BusState) (a : Nat),
      d.hasBus = true → addrTruthy d.address = false →
      PCA9685.POSSIBLE_ADDRESSES.find? (pcaAnswers b) = some a →
        ((PCA9685.detect b d s).1 = true ∧
         (PCA9685.detect b d s).2.1 = ⟨d.hasBus, some a, d.is_initialized⟩ ∧
         (PCA9685.detect b d s).2.2.log =
           s.log ++ pcaTrail b (PCA9685.POSSIBLE_ADDRESSES.takeWhile fun x => !pcaAnswers b x) ++
             [BusOp.setAddr a, BusOp.rData PCA9685.MODE1])) ∧
    (∀ (b : Bus) (d : PCA9685.Dev) (s : BusState),
      d.hasBus = true → addrTruthy d.address = false →
      PCA9685.POSSIBLE_ADDRESSES.find? (pcaAnswers b) = none →
        ((PCA9685.detect b d s).1 = false ∧
         (PCA9685.detect b d s).2.1 = d ∧
         (PCA9685.detect b d s).2.2.log = s.log ++ pcaTrail b PCA9685.POSSIBLE_ADDRESSES ∧
         (∀ p ∈ PCA9685.POSSIBLE_ADDRESSES,
            BusOp.setAddr p ∈ pcaTrail b PCA9685.POSSIBLE_ADDRESSES))) ∧
    (∀ (b : Bus) (d : HT16K33.Dev) (s : BusState) (a : Nat),
      d.hasBus = true → d.address = some a → a ≠ 0 →
        ((HT16K33.detect b d s).1 = (b.setOk a && b.rByteOk (some a)) ∧
         (HT16K33.detect b d s).2.1 = d ∧
         (HT16K33.detect b d s).2.2.log =
           s.log ++ (if b.setOk a then [BusOp.setAddr a, BusOp.rByte]
                     else [BusOp.setAddr a]) ∧
         (∀ p, BusOp.setAddr p ∈ (HT16K33.detect b d s).2.2.log →
            BusOp.setAddr p ∈ s.log ∨ p = a))) ∧
    (∀ (b : Bus) (d : HT16K33.Dev) (s : BusState) (a : Nat),
      d.hasBus = true → addrTruthy d.address = false →
      HT16K33.POSSIBLE_ADDRESSES.find? (htAnswers b) = some a →
        ((HT16K33.detect b d s).1 = true ∧
         (HT16K33.detect b d s).2.1 = ⟨d.hasBus, some a, d.is_initialized⟩ ∧
         (HT16K33.detect b d s).2.2.log =
           s.log ++ htTrail b (HT16K33.POSSIBLE_ADDRESSES.takeWhile fun x => !htAnswers b x) ++
             [BusOp.setAddr a, BusOp.rByte])) ∧
    (∀ (b : Bus) (d : HT16K33.Dev) (s : BusState),
      d.hasBus = true → addrTruthy d.address = false →
      HT16K33.POSSIBLE_ADDRESSES.find? (htAnswers b) = none →
        ((HT16K33.detect b d s).1 = false ∧
         (HT16K33.detect b d s).2.1 = d ∧
         (HT16K33.detect b d s).2.2.log = s.log ++ htTrail b HT16K33.POSSIBLE_ADDRESSES ∧
         (∀ p ∈ HT16K33.POSSIBLE_ADDRESSES,
            BusOp.setAddr p ∈ htTrail b HT16K33.POSSIBLE_ADDRESSES))) := by
  refine ⟨?_, ?_, ?_, ?_, ?_, ?_⟩
  · intro b d s a hb hA ha
    obtain ⟨h1, h2, h3⟩ := pca_detect_known b d s a hb hA ha
    refine ⟨h1, h2, h3, ?_⟩
    intro p hp
    rw [h3] at hp
    rcases List.mem_append.mp hp with h | h
    · exact Or.inl h
    · right
      cases hs : b.setOk a <;> simp [hs] at h <;> simp [h]
  · intro b d s a hb ht hfind
    have hbranch : PCA9685.detect b d s =
        PCA9685.detectScan b d s PCA9685.POSSIBLE_ADDRESSES := by
      simp [PCA9685.detect, hb, ht]
    rw [hbranch]
    exact pca_scan_found b d PCA9685.POSSIBLE_ADDRESSES s a hfind
  · intro b d s hb ht hfind
    have hbranch : PCA9685.detect b d s =
        PCA9685.detectScan b d s PCA9685.POSSIBLE_ADDRESSES := by
      simp [PCA9685.detect, hb, ht]
    rw [hbranch]
    obtain ⟨h1, h2, h3⟩ := pca_scan_none b d PCA9685.POSSIBLE_ADDRESSES s hfind
    exact ⟨h1, h2, h3, fun p hp => pcaTrail_mem b p _ hp⟩
  · intro b d s a hb hA ha
    obtain ⟨h1, h2, h3⟩ := ht_detect_known b d s a hb hA ha
    refine ⟨h1, h2, h3, ?_⟩
    intro p hp
    rw [h3] at hp
    rcases List.mem_append.mp hp with h | h
    · exact Or.inl h
    · right
      cases hs : b.setOk a <;> simp [hs] at h <;> simp [h]
  · intro b d s a hb ht hfind
    have hbranch : HT16K33.detect b d s =
        HT16K33.detectScan b d s HT16K33.POSSIBLE_ADDRESSES := by
      simp [HT16K33.detect, hb, ht]
    rw [hbranch]
    exact ht_scan_found b d HT16K33.POSSIBLE_ADDRESSES s a hfind
  · intro b d s hb ht hfind
    have hbranch : HT16K33.detect b d s =
        HT16K33.detectScan b d s HT16K33.POSSIBLE_ADDRESSES := by
      simp [HT16K33.detect, hb, ht]
    rw [hbranch]
    obtain ⟨h1, h2, h3⟩ := ht_scan_none b d HT16K33.POSSIBLE_ADDRESSES s hfind
    exact ⟨h1, h2, h3, fun p hp => htTrail_mem b p _ hp⟩

/-- Witness for C5 at concrete inputs: a known address is probed with a single
read and accepted on a perfect bus; a scan on a bus answering only at `0x62`
(`0x72` for the HT16K33) resolves that address; a scan on a dead bus reports
not found. -/
theorem C5_detect_probe_policy_witness :
    (PCA9685.detect busAll ⟨true, some 0x61, false⟩ bs0).1 = true ∧
    (PCA9685.detect busProbe ⟨true, none, false⟩ bs0).2.1.address = some 0x62 ∧
    (PCA9685.detect busDead ⟨true, none, false⟩ bs0).1 = false ∧
    (HT16K33.detect busAll ⟨true, some 0x71, false⟩ bs0).1 = true ∧
    (HT16K33.detect busProbe ⟨true, none, false⟩ bs0).2.1.address = some 0x72 ∧
    (HT16K33.detect busDead ⟨true, none, false⟩ bs0).1 = false := by
  refine ⟨?_, ?_, ?_, ?_, ?_, ?_⟩
  · rw [(C5_detect_probe_policy.1 busAll ⟨true, some 0x61, false⟩ bs0 0x61
      rfl rfl (by decide)).1]
    decide
  · rw [(C5_detect_probe_policy.2.1 busProbe ⟨true, none, false⟩ bs0 0x62
      rfl rfl (by decide)).2.1]
  · exact (C5_detect_probe_policy.2.2.1 busDead ⟨true, none, false⟩ bs0
      rfl rfl (by decide)).1
  · rw [(C5_detect_probe_policy.2.2.2.1 busAll ⟨true, some 0x71, false⟩ bs0 0x71
      rfl rfl (by decide)).1]
    decide
  · rw [(C5_detect_probe_policy.2.2.2.2.1 busProbe ⟨true, none, false⟩ bs0 0x72
      rfl rfl (by decide)).2.1]
  · exact (C5_detect_probe_policy.2.2.2.2.2 busDead ⟨true, none, false⟩ bs0
      rfl rfl (by decide)).1

/-- C4: contract of the board-level LED colour operation
(`E1DeviceManager.set_led_color`).  With no LED device resolved it fails
without touching the bus.  On a Ready device it clamps each colour component
into `[0, 255]` and chains three `set_pwm` calls on channels 0, 1, 2, each
with on-tick `15` (bytes `15`/`0`) and off-tick `15 + component*16`; the
composite result is the conjunction of the three calls' write outcomes — so
it reports success only if all three channel writes succeed — and on success
the log extension is exactly the twelve register writes in order. -/
theorem C4_set_led_color_contract :
    (∀ (b : Bus) (s : BusState) (r g bl : Int),
      E1DeviceManager.set_led_color b none s r g bl = (false, s)) ∧
    (∀ (b : Bus) (dev : PCA9685.Dev) (s : BusState) (r g bl : Int),
      dev.is_initialized = true →
        ((E1DeviceManager.set_led_color b (some dev) s r g bl).1 =
          ((b.wDataOk s.cur 6 15 && b.wDataOk s.cur 7 0 &&
            b.wDataOk s.cur 8 ((15 + (pyClamp 255 r).toNat * 16) &&& 0xFF) &&
            b.wDataOk s.cur 9 (((15 + (pyClamp 255 r).toNat * 16) >>> 8) &&& 0xFF)) &&
           ((b.wDataOk s.cur 10 15 && b.wDataOk s.cur 11 0 &&
             b.wDataOk s.cur 12 ((15 + (pyClamp 255 g).toNat * 16) &&& 0xFF) &&
             b.wDataOk s.cur 13 (((15 + (pyClamp 255 g).toNat * 16) >>> 8) &&& 0xFF)) &&
            (b.wDataOk s.cur 14 15 && b.wDataOk s.cur 15 0 &&
             b.wDataOk s.cur 16 ((15 + (pyClamp 255 bl).toNat * 16) &&& 0xFF) &&
             b.wDataOk s.cur 17 (((15 + (pyClamp 255 bl).toNat * 16) >>> 8) &&& 0xFF)))) ∧
         ((E1DeviceManager.set_led_color b (some dev) s r g bl).1 = true →
           (E1DeviceManager.set_led_color b (some dev) s r g bl).2.log =
             s.log ++
               [.wData 6 15, .wData 7 0,
                .wData 8 ((15 + (pyClamp 255 r).toNat * 16) &&& 0xFF),
                .wData 9 (((15 + (pyClamp 255 r).toNat * 16) >>> 8) &&& 0xFF),
                .wData 10 15, .wData 11 0,
                .wData 12 ((15 + (pyClamp 255 g).toNat * 16) &&& 0xFF),
                .wData 13 (((15 + (pyClamp 255 g).toNat * 16) >>> 8) &&& 0xFF),
                .wData 14 15, .wData 15 0,
                .wData 16 ((15 + (pyClamp 255 bl).toNat * 16) &&& 0xFF),
                .wData 17 (((15 + (pyClamp 255 bl).toNat * 16) >>> 8) &&& 0xFF)]))) := by
  constructor
  · intro b s r g bl
    simp [E1DeviceManager.set_led_color]
  · intro b dev s r g bl hinit
    have hon : (pyClamp 4095 15).toNat = 15 := by decide
    have hcr : (pyClamp 4095 (15 + pyClamp 255 r * 16)).toNat =
        15 + (pyClamp 255 r).toNat * 16 := by
      simp only [pyClamp]; omega
    have hcg : (pyClamp 4095 (15 + pyClamp 255 g * 16)).toNat =
        15 + (pyClamp 255 g).toNat * 16 := by
      simp only [pyClamp]; omega
    have hcb : (pyClamp 4095 (15 + pyClamp 255 bl * 16)).toNat =
        15 + (pyClamp 255 bl).toNat * 16 := by
      simp only [pyClamp]; omega
    have e1 : (15 : Nat) &&& 0xFF = 15 := by decide
    have e2 : ((15 : Nat) >>> 8) &&& 0xFF = 0 := by decide
    have ht2 : (2 : Int).toNat = 2 := rfl
    obtain ⟨hA1, hA2, hA3⟩ :=
      pca_set_pwm_spec b dev s 0 15 (15 + pyClamp 255 r * 16) hinit
        (by decide) (by decide)
    obtain ⟨hB1, hB2, hB3⟩ :=
      pca_set_pwm_spec b dev
        (PCA9685.set_pwm b dev s 0 15 (15 + pyClamp 255 r * 16)).2
        1 15 (15 + pyClamp 255 g * 16) hinit (by decide) (by decide)
    obtain ⟨hC1, hC2, hC3⟩ :=
      pca_set_pwm_spec b dev
        (PCA9685.set_pwm b dev
          (PCA9685.set_pwm b dev s 0 15 (15 + pyClamp 255 r * 16)).2
          1 15 (15 + pyClamp 255 g * 16)).2
        2 15 (15 + pyClamp 255 bl * 16) hinit (by decide) (by decide)
    rw [hA2] at hB1 hB2
    rw [hB2] at hC1
    norm_num [hon, hcr, hcg, hcb, e1, e2, ht2] at hA1 hA3 hB1 hB3 hC1 hC3
    have hres : (E1DeviceManager.set_led_color b (some dev) s r g bl).1 =
        ((PCA9685.set_pwm b dev s 0 15 (15 + pyClamp 255 r * 16)).1 &&
         ((PCA9685.set_pwm b dev
             (PCA9685.set_pwm b dev s 0 15 (15 + pyClamp 255 r * 16)).2
             1 15 (15 + pyClamp 255 g * 16)).1 &&
          (PCA9685.set_pwm b dev
             (PCA9685.set_pwm b dev
               (PCA9685.set_pwm b dev s 0 15 (15 + pyClamp 255 r * 16)).2
               1 15 (15 + pyClamp 255 g * 16)).2
             2 15 (15 + pyClamp 255 bl * 16)).1)) := by
      simp only [E1DeviceManager.set_led_color]
      cases h1 : (PCA9685.set_pwm b dev s 0 15 (15 + pyClamp 255 r * 16)).1 <;>
        cases h2 : (PCA9685.set_pwm b dev
            (PCA9685.set_pwm b dev s 0 15 (15 + pyClamp 255 r * 16)).2
            1 15 (15 + pyClamp 255 g * 16)).1 <;>
          simp [h1, h2]
    constructor
    · rw [hres, hA1, hB1, hC1]
    · intro htrue
      rw [hres] at htrue
      obtain ⟨h1, h23⟩ := Bool.and_eq_true .. |>.mp htrue
      obtain ⟨h2, h3⟩ := Bool.and_eq_true .. |>.mp h23
      have hfinal : (E1DeviceManager.set_led_color b (some dev) s r g bl).2 =
          (PCA9685.set_pwm b dev
            (PCA9685.set_pwm b dev
              (PCA9685.set_pwm b dev s 0 15 (15 + pyClamp 255 r * 16)).2
              1 15 (15 + pyClamp 255 g * 16)).2
            2 15 (15 + pyClamp 255 bl * 16)).2 := by
        simp only [E1DeviceManager.set_led_color]
        simp [h1, h2]
      rw [hfinal, hC3 h3, hB3 h2, hA3 h1]
      simp [List.append_assoc]

/-- Witness for C4 at concrete inputs: components `300, -5, 1` clamp to
`255, 0, 1`, giving off-ticks `4095, 15, 31`; the twelve writes land on
registers 6–17 and the call succeeds; with no LED device the call fails. -/
theorem C4_set_led_color_contract_witness :
    (E1DeviceManager.set_led_color busAll (some pcaReady) bs0 300 (-5) 1).1 = true ∧
    (E1DeviceManager.set_led_color busAll (some pcaReady) bs0 300 (-5) 1).2.log =
      [BusOp.wData 6 15, BusOp.wData 7 0, BusOp.wData 8 255, BusOp.wData 9 15,
       BusOp.wData 10 15, BusOp.wData 11 0, BusOp.wData 12 15, BusOp.wData 13 0,
       BusOp.wData 14 15, BusOp.wData 15 0, BusOp.wData 16 31, BusOp.wData 17 0] ∧
    E1DeviceManager.set_led_color busAll none bs0 0 0 0 = (false, bs0) := by
  have h := C4_set_led_color_contract.2 busAll pcaReady bs0 300 (-5) 1 rfl
  have hres : (E1DeviceManager.set_led_color busAll (some pcaReady) bs0 300 (-5) 1).1 = true := by
    rw [h.1]; decide
  refine ⟨hres, ?_, C4_set_led_color_contract.1 busAll bs0 0 0 0⟩
  rw [h.2 hres]
  decide

/-- C6: the key decode is a deterministic, stateless function of the 6-byte
block.  On a Ready device, `HT16K33.read_key` (and the identical
`S1KeyPad.get_key`) returns exactly the block-read outcome paired with
`keyDecode` of the block — the key code depends on nothing but the bytes
read.  `keyDecode` equals the spec-side first-match decode over the fixed
priority order `1..12` (so any multi-bit pattern resolves to the
earliest-checked key), and a block with no bit of `{0x01,0x02,0x04,0x08}` set
in bytes 0, 2, 4 decodes to key `0`. -/
theorem C6_read_key_decode :
    (∀ (b : Bus) (d : HT16K33.Dev) (s : BusState), d.is_initialized = true →
      HT16K33.read_key b d s =
        (b.rBlockOk s.cur 0x40,
         if b.rBlockOk s.cur 0x40 then HT16K33.keyDecode (b.rBlockVal s.cur 0x40 6) else 0,
         ⟨s.cur, s.log ++ [BusOp.rBlock 0x40 6]⟩)) ∧
    (∀ (b : Bus) (d : S1KeyPad.Dev) (s : BusState), d.is_initialized = true →
      S1KeyPad.get_key b d s =
        (b.rBlockOk s.cur 0x40,
         if b.rBlockOk s.cur 0x40 then HT16K33.keyDecode (b.rBlockVal s.cur 0x40 6) else 0,
         ⟨s.cur, s.log ++ [BusOp.rBlock 0x40 6]⟩)) ∧
    (∀ v : List Nat, HT16K33.keyDecode v = keyPriorityDecode v) ∧
    (∀ v : List Nat,
      v.getD 0 0 &&& 0xF = 0 → v.getD 2 0 &&& 0xF = 0 → v.getD 4 0 &&& 0xF = 0 →
        HT16K33.keyDecode v = 0) := by
  refine ⟨?_, ?_, ?_, ?_⟩
  · intro b d s hinit
    cases hbl : b.rBlockOk s.cur 0x40 <;>
      simp [HT16K33.read_key, read_block_data, HT16K33.CMD_KEY_DATA_START, hinit, hbl]
  · intro b d s hinit
    cases hbl : b.rBlockOk s.cur 0x40 <;>
      simp [S1KeyPad.get_key, read_block_data, S1KeyPad.KEY_KS0,
        S1KeyPad.KEY_REG_NUM, hinit, hbl]
  · intro v
    rfl
  · intro v h0 h2 h4
    have m : ∀ (x k : Nat), 15 &&& k = k → x &&& 15 = 0 → x &&& k = 0 := by
      intro x k hk h
      rw [← hk, ← Nat.and_assoc, h, Nat.zero_and]
    simp only [HT16K33.keyDecode,
      m (v.getD 0 0) 1 (by decide) h0, m (v.getD 2 0) 1 (by decide) h2,
      m (v.getD 4 0) 1 (by decide) h4, m (v.getD 0 0) 2 (by decide) h0,
      m (v.getD 2 0) 2 (by decide) h2, m (v.getD 4 0) 2 (by decide) h4,
      m (v.getD 0 0) 4 (by decide) h0, m (v.getD 2 0) 4 (by decide) h2,
      m (v.getD 4 0) 4 (by decide) h4, m (v.getD 0 0) 8 (by decide) h0,
      m (v.getD 2 0) 8 (by decide) h2, m (v.getD 4 0) 8 (by decide) h4,
      bne_self_eq_false, Bool.false_eq_true, if_false]

/-- Witness for C6 at concrete inputs: a Ready device over the all-zero bus
reads key `0`; the priority decode agrees on a two-bit block (`2` at byte 0,
`1` at byte 2 — resolves to key `2`, not key `4`); a block with only high
bits set decodes to `0`. -/
theorem C6_read_key_decode_witness :
    HT16K33.read_key busAll htReady bs0 = (true, 0, ⟨none, [BusOp.rBlock 0x40 6]⟩) ∧
    S1KeyPad.get_key busAll ⟨true, some 0x74, true⟩ bs0 =
      (true, 0, ⟨none, [BusOp.rBlock 0x40 6]⟩) ∧
    HT16K33.keyDecode [2, 0, 1, 0, 0, 0] = keyPriorityDecode [2, 0, 1, 0, 0, 0] ∧
    HT16K33.keyDecode [16, 0, 32, 0, 48, 0] = 0 := by
  refine ⟨?_, ?_,
    C6_read_key_decode.2.2.1 [2, 0, 1, 0, 0, 0],
    C6_read_key_decode.2.2.2 [16, 0, 32, 0, 48, 0] (by decide) (by decide) (by decide)⟩
  · rw [C6_read_key_decode.1 busAll htReady bs0 rfl]
    decide
  · rw [C6_read_key_decode.2.1 busAll ⟨true, some 0x74, true⟩ bs0 rfl]
    decide

/-- C10: `E2PCA9685.set_all_pwm` has a weaker precondition than `set_pwm`.
It refuses only when the device is uninitialized AND no address is resolved;
with any resolved address it performs its four broadcast-register writes even
while the initialized flag is false (no initialized hypothesis in the second
conjunct).  This is what lets `E2PCA9685.init` zero all channels before
marking the device initialized: on an uninitialized device with a resolved
address it writes `MODE1 := 0` followed by the four broadcast writes and only
then sets the flag.  `set_pwm`, by contrast, always refuses while the
initialized flag is false. -/
theorem C10_e2_set_all_pwm_precondition :
    (∀ (b : Bus) (d : E2PCA9685.Dev) (s : BusState) (onT offT : Int),
      d.is_initialized = false → d.address = none →
        E2PCA9685.set_all_pwm b d s onT offT = (false, s)) ∧
    (∀ (b : Bus) (d : E2PCA9685.Dev) (s : BusState) (onT offT : Int) (a : Nat),
      d.address = some a →
        ((E2PCA9685.set_all_pwm b d s onT offT).1 =
          (b.wDataOk s.cur 0xFA ((pyClamp 4095 onT).toNat &&& 0xFF) &&
           b.wDataOk s.cur 0xFB (((pyClamp 4095 onT).toNat >>> 8) &&& 0xFF) &&
           b.wDataOk s.cur 0xFC ((pyClamp 4095 offT).toNat &&& 0xFF) &&
           b.wDataOk s.cur 0xFD (((pyClamp 4095 offT).toNat >>> 8) &&& 0xFF)) ∧
         ((E2PCA9685.set_all_pwm b d s onT offT).1 = true →
           (E2PCA9685.set_all_pwm b d s onT offT).2.log =
             s.log ++
               [.wData 0xFA ((pyClamp 4095 onT).toNat &&& 0xFF),
                .wData 0xFB (((pyClamp 4095 onT).toNat >>> 8) &&& 0xFF),
                .wData 0xFC ((pyClamp 4095 offT).toNat &&& 0xFF),
                .wData 0xFD (((pyClamp 4095 offT).toNat >>> 8) &&& 0xFF)]))) ∧
    (∀ (b : Bus) (d : E2PCA9685.Dev) (s : BusState) (ch onT offT : Int),
      d.is_initialized = false →
        E2PCA9685.set_pwm b d s ch onT offT = (false, s)) ∧
    (∀ (b : Bus) (d : E2PCA9685.Dev) (s : BusState) (a : Nat),
      d.hasI2c = true → d.address = some a → a ≠ 0 → d.is_initialized = false →
      (∀ r v, b.wDataOk s.cur r v = true) →
        ((E2PCA9685.init b d s).1 = true ∧
         (E2PCA9685.init b d s).2.1 = ⟨true, some a, true⟩ ∧
         (E2PCA9685.init b d s).2.2.log =
           s.log ++ [.wData 0 0, .wData 0xFA 0, .wData 0xFB 0,
                     .wData 0xFC 0, .wData 0xFD 0])) := by
  refine ⟨?_, ?_, ?_, ?_⟩
  · intro b d s onT offT hinit haddr
    simp [E2PCA9685.set_all_pwm, hinit, haddr]
  · intro b d s onT offT a ha
    obtain ⟨h1, _, h3⟩ := e2_set_all_pwm_spec b d s onT offT a ha
    exact ⟨h1, h3⟩
  · intro b d s ch onT offT hinit
    simp [E2PCA9685.set_pwm, hinit]
  · intro b d s a hbus ha hane hinit hok
    have hzero : (pyClamp 4095 0).toNat = 0 := by decide
    have z1 : (0 : Nat) &&& 0xFF = 0 := by decide
    have z2 : ((0 : Nat) >>> 8) &&& 0xFF = 0 := by decide
    obtain ⟨h1, _, h3⟩ :=
      e2_set_all_pwm_spec b d ⟨s.cur, s.log ++ [BusOp.wData 0 0]⟩ 0 0 a ha
    simp only [hzero, z1, z2] at h1 h3
    have hp1 : (E2PCA9685.set_all_pwm b d ⟨s.cur, s.log ++ [BusOp.wData 0 0]⟩ 0 0).1 = true := by
      rw [h1]
      simp [hok]
    have hlog := h3 hp1
    simp only [E2PCA9685.init, E2PCA9685.MODE1, write_byte_data, hbus, ha,
      addrTruthy, bne_iff_ne, ne_eq, hane, not_false_eq_true, Bool.not_true,
      Bool.false_or, if_false, hok, hp1, hlog]
    simp [hane, hlog, List.append_assoc]

/-- C1, amended: for every speed level, `set_fan_speed` on an initialized
device clamps the level into `[0, 100]` and writes channel 0 with on-tick `0`
and off-tick `floor(4095 * level / 100)` — Python's `int(...)` truncates the
(exactly representable) quotient, it does not round to nearest.  The off-tick
is at most `4095`, and any level at or below `0` (in particular `0` itself)
yields off-tick `0`. -/
theorem C1_fan_speed_floor (b : Bus) (d : E2PCA9685.Dev) (s : BusState)
    (speed : Int) (hinit : d.is_initialized = true)
    (hok : ∀ r v, b.wDataOk s.cur r v = true) :
    (E2PCA9685.set_fan_speed b d s speed).1 = true ∧
    (E2PCA9685.set_fan_speed b d s speed).2.log =
      s.log ++
        [.wData 6 0, .wData 7 0,
         .wData 8 ((4095 * (pyClamp 100 speed).toNat / 100) &&& 0xFF),
         .wData 9 (((4095 * (pyClamp 100 speed).toNat / 100) >>> 8) &&& 0xFF)] ∧
    4095 * (pyClamp 100 speed).toNat / 100 ≤ 4095 ∧
    (speed ≤ 0 → 4095 * (pyClamp 100 speed).toNat / 100 = 0) := by
  have hsl : (pyClamp 100 speed).toNat ≤ 100 := by
    simp only [pyClamp]; omega
  have hoff : 4095 * (pyClamp 100 speed).toNat / 100 ≤ 4095 := by omega
  have hunfold : E2PCA9685.set_fan_speed b d s speed =
      E2PCA9685.set_pwm b d s 0 (Int.ofNat 0)
        (Int.ofNat (0 + 4095 * (pyClamp 100 speed).toNat / 100)) := by
    simp [E2PCA9685.set_fan_speed, hinit]
  have harg : Int.ofNat (0 + 4095 * (pyClamp 100 speed).toNat / 100) =
      Int.ofNat (4095 * (pyClamp 100 speed).toNat / 100) := by
    norm_num
  rw [hunfold, harg]
  obtain ⟨h1, _, h3⟩ := e2_set_pwm_spec b d s 0 (Int.ofNat 0)
    (Int.ofNat (4095 * (pyClamp 100 speed).toNat / 100)) hinit
    (by decide) (by decide)
  have hcOn : (pyClamp 4095 (Int.ofNat 0)).toNat = 0 := by decide
  have hcOff : (pyClamp 4095 (Int.ofNat (4095 * (pyClamp 100 speed).toNat / 100))).toNat =
      4095 * (pyClamp 100 speed).toNat / 100 := by
    simp only [pyClamp, Int.ofNat_eq_coe]
    omega
  have ht0 : (0 : Int).toNat = 0 := rfl
  have z1 : (0 : Nat) &&& 0xFF = 0 := by decide
  have z2 : ((0 : Nat) >>> 8) &&& 0xFF = 0 := by decide
  have hres : (E2PCA9685.set_pwm b d s 0 (Int.ofNat 0)
      (Int.ofNat (4095 * (pyClamp 100 speed).toNat / 100))).1 = true := by
    rw [h1]
    simp [hok]
  refine ⟨hres, ?_, hoff, ?_⟩
  · rw [h3 hres, hcOn, hcOff, ht0]
    norm_num [z1, z2]
  · intro hneg
    have : (pyClamp 100 speed).toNat = 0 := by
      simp only [pyClamp]; omega
    rw [this]

theorem ht_display_char_right_ok (b : Bus) (d : HT16K33.Dev) (s : BusState)
    (i : Nat) (c : Char) (r1 r2 : Nat) (hinit : d.is_initialized = true)
    (hi : i ≤ 3) (hok : ∀ r v, b.wDataOk s.cur r v = true)
    (hc : HT16K33.TUBE_CHARS c = some (r1, r2)) :
    HT16K33.display_char_right b d s ((i : Nat) : Int) c =
      (true, ⟨s.cur, s.log ++ [BusOp.wData (8 - i * 2) r1,
                               BusOp.wData (8 - i * 2 + 1) r2]⟩) := by
  have hg : ¬((i : Int) < 0 || 3 < (i : Int)) = true := by
    simp only [Bool.or_eq_true, decide_eq_true_eq, Int.ofNat_eq_coe]
    omega
  simp [HT16K33.display_char_right, hinit, if_neg hg, hc, write_byte_data, hok,
    Int.toNat_ofNat, List.append_assoc]
  all_goals omega

theorem ht_display_char_left_ok (b : Bus) (d : HT16K33.Dev) (s : BusState)
    (i : Nat) (c : Char) (r1 r2 : Nat) (hinit : d.is_initialized = true)
    (hi : i ≤ 3) (hok : ∀ r v, b.wDataOk s.cur r v = true)
    (hc : HT16K33.TUBE_CHARS c = some (r1, r2)) :
    HT16K33.display_char_left b d s ((i : Nat) : Int) c =
      (true, ⟨s.cur, s.log ++ [BusOp.wData (2 + i * 2) r1,
                               BusOp.wData (2 + i * 2 + 1) r2]⟩) := by
  have hg : ¬((i : Int) < 0 || 3 < (i : Int)) = true := by
    simp only [Bool.or_eq_true, decide_eq_true_eq, Int.ofNat_eq_coe]
    omega
  simp [HT16K33.display_char_left, hinit, if_neg hg, hc, write_byte_data, hok,
    Int.toNat_ofNat, List.append_assoc]
  all_goals omega

theorem ht_display_char_none (b : Bus) (d : HT16K33.Dev) (s : BusState)
    (i : Int) (c : Char) (hc : HT16K33.TUBE_CHARS c = none) :
    HT16K33.display_char_left b d s i c = (false, s) ∧
    HT16K33.display_char_right b d s i c = (false, s) := by
  constructor <;>
    · cases hini : d.is_initialized <;>
        simp [HT16K33.display_char_left, HT16K33.display_char_right, hini, hc]

theorem ht_display_char_left_ext (b : Bus) (d : HT16K33.Dev) (s : BusState)
    (i : Int) (c : Char) :
    (HT16K33.display_char_left b d s i c).2.cur = s.cur ∧
    ∃ w, (HT16K33.display_char_left b d s i c).2.log = s.log ++ w ∧
      w.length ≤ 2 ∧ ∀ op ∈ w, ∃ r v, op = BusOp.wData r v ∧ 2 ≤ r ∧ r ≤ 9 := by
  cases hini : d.is_initialized with
  | false =>
    exact ⟨by simp [HT16K33.display_char_left, hini],
      [], by simp [HT16K33.display_char_left, hini], by simp, by simp⟩
  | true =>
    by_cases hg : (decide (i < 0) || decide (3 < i)) = true
    · exact ⟨by simp [HT16K33.display_char_left, hini, hg],
        [], by simp [HT16K33.display_char_left, hini, hg], by simp, by simp⟩
    · have hi3 : i.toNat ≤ 3 := by
        simp only [Bool.or_eq_true, decide_eq_true_eq, not_or] at hg
        omega
      rcases hc : HT16K33.TUBE_CHARS c with _ | ⟨r1, r2⟩
      · exact ⟨by simp [HT16K33.display_char_left, hini, hg, hc],
          [], by simp [HT16K33.display_char_left, hini, hg, hc], by simp, by simp⟩
      · cases hw1 : b.wDataOk s.cur (2 + i.toNat * 2) r1 with
        | false =>
          refine ⟨by simp [HT16K33.display_char_left, hini, hg, hc,
              write_byte_data, hw1],
            [BusOp.wData (2 + i.toNat * 2) r1],
            by simp [HT16K33.display_char_left, hini, hg, hc,
              write_byte_data, hw1], by simp, ?_⟩
          intro op hop
          rw [List.mem_singleton] at hop
          subst hop
          exact ⟨_, _, rfl, by omega, by omega⟩
        | true =>
          refine ⟨by simp [HT16K33.display_char_left, hini, hg, hc,
              write_byte_data, hw1],
            [BusOp.wData (2 + i.toNat * 2) r1, BusOp.wData (2 + i.toNat * 2 + 1) r2],
            by simp [HT16K33.display_char_left, hini, hg, hc,
              write_byte_data, hw1, List.append_assoc], by simp, ?_⟩
          intro op hop
          rcases List.mem_cons.mp hop with h | h
          · subst h; exact ⟨_, _, rfl, by omega, by omega⟩
          · rw [List.mem_singleton] at h
            subst h; exact ⟨_, _, rfl, by omega, by omega⟩

theorem ht_display_char_right_ext (b : Bus) (d : HT16K33.Dev) (s : BusState)
    (i : Int) (c : Char) :
    (HT16K33.display_char_right b d s i c).2.cur = s.cur ∧
    ∃ w, (HT16K33.display_char_right b d s i c).2.log = s.log ++ w ∧
      w.length ≤ 2 ∧ ∀ op ∈ w, ∃ r v, op = BusOp.wData r v ∧ 2 ≤ r ∧ r ≤ 9 := by
  cases hini : d.is_initialized with
  | false =>
    exact ⟨by simp [HT16K33.display_char_right, hini],
      [], by simp [HT16K33.display_char_right, hini], by simp, by simp⟩
  | true =>
    by_cases hg : (decide (i < 0) || decide (3 < i)) = true
    · exact ⟨by simp [HT16K33.display_char_right, hini, hg],
        [], by simp [HT16K33.display_char_right, hini, hg], by simp, by simp⟩
    · have hi3 : i.toNat ≤ 3 := by
        simp only [Bool.or_eq_true, decide_eq_true_eq, not_or] at hg
        omega
      rcases hc : HT16K33.TUBE_CHARS c with _ | ⟨r1, r2⟩
      · exact ⟨by simp [HT16K33.display_char_right, hini, hg, hc],
          [], by simp [HT16K33.display_char_right, hini, hg, hc], by simp, by simp⟩
      · cases hw1 : b.wDataOk s.cur (8 - i.toNat * 2) r1 with
        | false =>
          refine ⟨by simp [HT16K33.display_char_right, hini, hg, hc,
              write_byte_data, hw1],
            [BusOp.wData (8 - i.toNat * 2) r1],
            by simp [HT16K33.display_char_right, hini, hg, hc,
              write_byte_data, hw1], by simp, ?_⟩
          intro op hop
          rw [List.mem_singleton] at hop
          subst hop
          exact ⟨_, _, rfl, by omega, by omega⟩
        | true =>
          refine ⟨by simp [HT16K33.display_char_right, hini, hg, hc,
              write_byte_data, hw1],
            [BusOp.wData (8 - i.toNat * 2) r1, BusOp.wData (8 - i.toNat * 2 + 1) r2],
            by simp [HT16K33.display_char_right, hini, hg, hc,
              write_byte_data, hw1, List.append_assoc], by simp, ?_⟩
          intro op hop
          rcases List.mem_cons.mp hop with h | h
          · subst h; exact ⟨_, _, rfl, by omega, by omega⟩
          · rw [List.mem_singleton] at h
            subst h; exact ⟨_, _, rfl, by omega, by omega⟩

theorem ht_clearLoop_ext (b : Bus) (rs : List Nat) :
    ∀ s : BusState,
      (HT16K33.clearLoop b s rs).2.cur = s.cur ∧
      ∃ w, (HT16K33.clearLoop b s rs).2.log = s.log ++ w ∧
        w.length ≤ rs.length ∧ ∀ op ∈ w, ∃ r, op = BusOp.wData r 0 ∧ r ∈ rs := by
  induction rs with
  | nil => intro s; exact ⟨rfl, [], by simp [HT16K33.clearLoop], by simp, by simp⟩
  | cons r rest ih =>
    intro s
    cases hw : b.wDataOk s.cur r 0 with
    | false =>
      refine ⟨by simp [HT16K33.clearLoop, write_byte_data, hw],
        [BusOp.wData r 0], by simp [HT16K33.clearLoop, write_byte_data, hw],
        by simp, ?_⟩
      intro op hop
      rw [List.mem_singleton] at hop
      subst hop
      exact ⟨r, rfl, List.mem_cons_self r rest⟩
    | true =>
      obtain ⟨hcur, w, hlog, hlen, hmem⟩ := ih ⟨s.cur, s.log ++ [BusOp.wData r 0]⟩
      refine ⟨by simp [HT16K33.clearLoop, write_byte_data, hw, hcur],
        BusOp.wData r 0 :: w, ?_, by simpa using hlen, ?_⟩
      · simp only [HT16K33.clearLoop, write_byte_data, hw, Bool.not_true,
          Bool.false_eq_true, if_false]
        rw [hlog]
        simp
      · intro op hop
        rcases List.mem_cons.mp hop with h | h
        · subst h; exact ⟨r, rfl, List.mem_cons_self r rest⟩
        · obtain ⟨r', hr', hmemr⟩ := hmem op h
          exact ⟨r', hr', List.mem_cons_of_mem r hmemr⟩

theorem ht_clear_ext (b : Bus) (d : HT16K33.Dev) (s : BusState) :
    (HT16K33.clear b d s).2.cur = s.cur ∧
    ∃ w, (HT16K33.clear b d s).2.log = s.log ++ w ∧
      w.length ≤ 8 ∧ ∀ op ∈ w, ∃ r, op = BusOp.wData r 0 ∧ 2 ≤ r ∧ r ≤ 9 := by
  cases hini : d.is_initialized with
  | false =>
    exact ⟨by simp [HT16K33.clear, hini],
      [], by simp [HT16K33.clear, hini], by simp, by simp⟩
  | true =>
    obtain ⟨hcur, w, hlog, hlen, hmem⟩ :=
      ht_clearLoop_ext b [0x02, 0x03, 0x04, 0x05, 0x06, 0x07, 0x08, 0x09] s
    refine ⟨by simp [HT16K33.clear, hini, hcur],
      w, by simp only [HT16K33.clear, hini, Bool.not_true, Bool.false_eq_true,
        if_false]; exact hlog, by simpa using hlen, ?_⟩
    intro op hop
    obtain ⟨r, hr, hmemr⟩ := hmem op hop
    refine ⟨r, hr, ?_, ?_⟩ <;> (simp at hmemr; omega)

theorem ht_clear_ok (b : Bus) (d : HT16K33.Dev) (s : BusState)
    (hinit : d.is_initialized = true)
    (hok : ∀ r v, b.wDataOk s.cur r v = true) :
    HT16K33.clear b d s = (true, ⟨s.cur, s.log ++ clearWrites⟩) := by
  simp [HT16K33.clear, HT16K33.clearLoop, hinit, write_byte_data, hok,
    clearWrites, List.append_assoc]

theorem ht_dispLoop_ext (b : Bus) (d : HT16K33.Dev) (right : Bool)
    (cs : List Char) :
    ∀ (s : BusState) (i : Nat),
      (HT16K33.dispLoop b d right s i cs).2.cur = s.cur ∧
      ∃ w, (HT16K33.dispLoop b d right s i cs).2.log = s.log ++ w ∧
        w.length ≤ 2 * cs.length ∧
        ∀ op ∈ w, ∃ r v, op = BusOp.wData r v ∧ 2 ≤ r ∧ r ≤ 9 := by
  induction cs with
  | nil =>
    intro s i
    exact ⟨rfl, [], by simp [HT16K33.dispLoop], by simp, by simp⟩
  | cons c rest ih =>
    intro s i
    by_cases h4 : 4 ≤ i
    · exact ⟨by simp [HT16K33.dispLoop, h4],
        [], by simp [HT16K33.dispLoop, h4], by simp, by simp⟩
    · have hchar :
          ((if right then HT16K33.display_char_right b d s ((i : Nat) : Int) c
            else HT16K33.display_char_left b d s ((i : Nat) : Int) c)).2.cur = s.cur ∧
          ∃ w, ((if right then HT16K33.display_char_right b d s ((i : Nat) : Int) c
            else HT16K33.display_char_left b d s ((i : Nat) : Int) c)).2.log = s.log ++ w ∧
            w.length ≤ 2 ∧ ∀ op ∈ w, ∃ r v, op = BusOp.wData r v ∧ 2 ≤ r ∧ r ≤ 9 := by
        cases right
        · simpa using ht_display_char_left_ext b d s ((i : Nat) : Int) c
        · simpa using ht_display_char_right_ext b d s ((i : Nat) : Int) c
      obtain ⟨hcur1, w1, hlog1, hlen1, hmem1⟩ := hchar
      cases hok1 : ((if right then HT16K33.display_char_right b d s ((i : Nat) : Int) c
          else HT16K33.display_char_left b d s ((i : Nat) : Int) c)).1 with
      | false =>
        refine ⟨?_, w1, ?_, by simp only [List.length_cons]; omega, hmem1⟩
        · simp only [HT16K33.dispLoop, if_neg h4]
          simp [hok1, hcur1]
        · simp only [HT16K33.dispLoop, if_neg h4]
          simp [hok1, hlog1]
      | true =>
        obtain ⟨hcur2, w2, hlog2, hlen2, hmem2⟩ :=
          ih ((if right then HT16K33.display_char_right b d s ((i : Nat) : Int) c
            else HT16K33.display_char_left b d s ((i : Nat) : Int) c)).2 (i + 1)
        refine ⟨?_, w1 ++ w2, ?_, ?_, ?_⟩
        · simp only [HT16K33.dispLoop, if_neg h4]
          simp [hok1, hcur2, hcur1]
        · simp only [HT16K33.dispLoop, if_neg h4]
          simp [hok1, hlog2, hlog1, List.append_assoc]
        · simp only [List.length_append, List.length_cons]
          omega
        · intro op hop
          rcases List.mem_append.mp hop with h | h
          · exact hmem1 op h
          · exact hmem2 op h

theorem ht_dispLoop_true_iff (b : Bus) (d : HT16K33.Dev) (right : Bool)
    (cs : List Char) :
    ∀ (s : BusState) (i : Nat), i + cs.length ≤ 4 →
      d.is_initialized = true →
      (∀ r v, b.wDataOk s.cur r v = true) →
      ((HT16K33.dispLoop b d right s i cs).1 = true ↔
        ∀ c ∈ cs, (HT16K33.TUBE_CHARS c).isSome = true) := by
  induction cs with
  | nil => intro s i _ _ _; simp [HT16K33.dispLoop]
  | cons c rest ih =>
    intro s i hle hinit hok
    have h4 : ¬ 4 ≤ i := by
      simp only [List.length_cons] at hle
      omega
    have hi3 : i ≤ 3 := by
      simp only [List.length_cons] at hle
      omega
    rcases hc : HT16K33.TUBE_CHARS c with _ | ⟨r1, r2⟩
    · have hnone := ht_display_char_none b d s ((i : Nat) : Int) c hc
      cases right <;>
        simp [HT16K33.dispLoop, if_neg h4, hnone.1, hnone.2, hc]
    · have hrest : i + 1 + rest.length ≤ 4 := by
        simp only [List.length_cons] at hle
        omega
      cases right with
      | true =>
        have hcall := ht_display_char_right_ok b d s i c r1 r2 hinit hi3 hok hc
        have hihyp := ih ⟨s.cur, s.log ++ [BusOp.wData (8 - i * 2) r1,
          BusOp.wData (8 - i * 2 + 1) r2]⟩ (i + 1) hrest hinit hok
        simp only [HT16K33.dispLoop, if_neg h4, if_true, hcall, Bool.not_true,
          Bool.false_eq_true, if_false]
        rw [hihyp]
        simp [hc]
      | false =>
        have hcall := ht_display_char_left_ok b d s i c r1 r2 hinit hi3 hok hc
        have hihyp := ih ⟨s.cur, s.log ++ [BusOp.wData (2 + i * 2) r1,
          BusOp.wData (2 + i * 2 + 1) r2]⟩ (i + 1) hrest hinit hok
        simp only [HT16K33.dispLoop, if_neg h4, if_false, hcall, Bool.not_true,
          Bool.false_eq_true]
        rw [hihyp]
        simp [hc]

/-- C7: `display_string` clears the display, truncates the input to at most 4
characters, and writes at most 4 character slots: beyond the (at most eight)
zero-writes of the clear phase, the log extension holds at most
`2 * (text.take 4).length ≤ 8` further writes, and every write of the
extension targets the digit registers `0x02`–`0x09`.  With `align_right`
true, the truncated text is iterated in reverse: its last character (the head
of the reversed truncated text, equally its `getLast?`) is written first, at
the rightmost slot — register base `0x08` — immediately after the eight
clear writes. -/
theorem C7_display_string_truncation :
    (∀ (b : Bus) (d : HT16K33.Dev) (s : BusState) (text : List Char) (al : Bool),
      ∃ w, (HT16K33.display_string b d s text al).2.log = s.log ++ w ∧
        w.length ≤ 8 + 2 * (text.take 4).length ∧
        (text.take 4).length ≤ 4 ∧
        ∀ op ∈ w, ∃ r v, op = BusOp.wData r v ∧ 2 ≤ r ∧ r ≤ 9) ∧
    (∀ (b : Bus) (d : HT16K33.Dev) (s : BusState) (text : List Char)
        (c : Char) (cs : List Char) (r1 r2 : Nat),
      d.is_initialized = true →
      (∀ r v, b.wDataOk s.cur r v = true) →
      (text.take 4).reverse = c :: cs →
      HT16K33.TUBE_CHARS c = some (r1, r2) →
        (text.take 4).getLast? = some c ∧
        ∃ w, (HT16K33.display_string b d s text true).2.log =
          s.log ++ clearWrites ++ [BusOp.wData 8 r1, BusOp.wData 9 r2] ++ w) := by
  constructor
  · intro b d s text al
    cases hini : d.is_initialized with
    | false =>
      exact ⟨[], by simp [HT16K33.display_string, hini], by simp,
        by simp only [List.length_take]; omega, by simp⟩
    | true =>
      obtain ⟨hcurC, wc, hlogC, hlenC, hmemC⟩ := ht_clear_ext b d s
      cases al with
      | true =>
        obtain ⟨hcurD, wd, hlogD, hlenD, hmemD⟩ :=
          ht_dispLoop_ext b d true ((text.take 4).reverse) (HT16K33.clear b d s).2 0
        refine ⟨wc ++ wd, ?_, ?_, by simp only [List.length_take]; omega, ?_⟩
        · simp only [HT16K33.display_string, hini, Bool.not_true,
            Bool.false_eq_true, if_false, if_true]
          rw [hlogD, hlogC]
          simp [List.append_assoc]
        · simp only [List.length_append]
          simp only [List.length_reverse] at hlenD
          omega
        · intro op hop
          rcases List.mem_append.mp hop with h | h
          · obtain ⟨r, hr, h2, h9⟩ := hmemC op h
            exact ⟨r, 0, hr, h2, h9⟩
          · exact hmemD op h
      | false =>
        obtain ⟨hcurD, wd, hlogD, hlenD, hmemD⟩ :=
          ht_dispLoop_ext b d false (text.take 4) (HT16K33.clear b d s).2 0
        refine ⟨wc ++ wd, ?_, ?_, by simp only [List.length_take]; omega, ?_⟩
        · simp only [HT16K33.display_string, hini, Bool.not_true,
            Bool.false_eq_true, if_false]
          rw [hlogD, hlogC]
          simp [List.append_assoc]
        · simp only [List.length_append]
          omega
        · intro op hop
          rcases List.mem_append.mp hop with h | h
          · obtain ⟨r, hr, h2, h9⟩ := hmemC op h
            exact ⟨r, 0, hr, h2, h9⟩
          · exact hmemD op h
  · intro b d s text c cs r1 r2 hinit hok hrev hc
    constructor
    · rw [← List.head?_reverse, hrev]
      rfl
    · have hclear := ht_clear_ok b d s hinit hok
      have hcall := ht_display_char_right_ok b d
        ⟨s.cur, s.log ++ clearWrites⟩ 0 c r1 r2 hinit (by omega) hok hc
      obtain ⟨hcurD, wd, hlogD, hlenD, hmemD⟩ :=
        ht_dispLoop_ext b d true cs
          ⟨s.cur, s.log ++ (clearWrites ++ [BusOp.wData 8 r1, BusOp.wData 9 r2])⟩ 1
      refine ⟨wd, ?_⟩
      simp only [HT16K33.display_string, hinit, Bool.not_true,
        Bool.false_eq_true, if_false, if_true, hclear, hrev]
      simp only [HT16K33.dispLoop, if_neg (by omega : ¬ 4 ≤ 0)]
      simp only [ite_true, Nat.cast_zero, Nat.zero_add]
      norm_num at hcall
      rw [hcall]
      simp [hlogD, List.append_assoc]

/-- Witness for C7 at concrete inputs: a six-character input produces at most
16 writes (8 clear writes + 4 slots of 2); for input `"12345"` right-aligned,
the first ten logged operations are the eight clear writes followed by the
two writes of character `'4'` — the last character of the truncated input —
at the rightmost slot, registers `0x08`/`0x09`. -/
theorem C7_display_string_truncation_witness :
    (HT16K33.display_string busAll htReady bs0
      ['1', '2', '3', '4', '5', '6'] true).2.log.length ≤ 16 ∧
    (HT16K33.display_string busAll htReady bs0
      ['1', '2', '3', '4', '5'] true).2.log.take 10 =
      clearWrites ++ [BusOp.wData 8 0x30, BusOp.wData 9 0x03] := by
  constructor
  · obtain ⟨w, hlog, hlen, htk, _⟩ := C7_display_string_truncation.1 busAll
      htReady bs0 ['1', '2', '3', '4', '5', '6'] true
    rw [hlog]
    have h4 : (((['1', '2', '3', '4', '5', '6'] : List Char)).take 4).length = 4 := by
      decide
    have h0 : bs0.log.length = 0 := rfl
    simp only [List.length_append]
    omega
  · obtain ⟨hlast, w, hlog⟩ := C7_display_string_truncation.2 busAll htReady
      bs0 ['1', '2', '3', '4', '5'] '4' ['3', '2', '1'] 0x30 0x03 rfl
      (fun r v => rfl) (by decide) (by decide)
    rw [hlog]
    have hA : ((bs0.log ++ clearWrites) ++
        [BusOp.wData 8 0x30, BusOp.wData 9 0x03]).length = 10 := by decide
    rw [List.take_left' hA]
    decide

/-- C8, counterexample: `display_string` does not skip a character outside
the segment table.  On a Ready device over a perfect bus, displaying `"X0"`
left-aligned returns `False` and the log holds only the eight clear writes:
the unsupported `'X'` aborted the call, and the supported `'0'` after it was
never written — the opposite of skip-and-continue. -/
theorem C8_skip_policy_counterexample :
    (HT16K33.display_string busAll htReady bs0 ['X', '0'] false).1 = false ∧
    (HT16K33.display_string busAll htReady bs0 ['X', '0'] false).2.log =
      clearWrites := by
  decide

/-- C8, amended: a character outside the segment table aborts
`display_string` rather than being skipped: on a Ready device whose writes
succeed, `display_string` returns `True` exactly when every character of the
truncated text is in the table — one unsupported character makes the whole
call fail, the same hard-fail policy as the indexed single-character writes
`display_char_left`/`display_char_right`, which fail without any bus write on
an unsupported character. -/
theorem C8_unsupported_aborts :
    (∀ (b : Bus) (d : HT16K33.Dev) (s : BusState) (text : List Char) (al : Bool),
      d.is_initialized = true → (∀ r v, b.wDataOk s.cur r v = true) →
        ((HT16K33.display_string b d s text al).1 = true ↔
          ∀ c ∈ text.take 4, (HT16K33.TUBE_CHARS c).isSome = true)) ∧
    (∀ (b : Bus) (d : HT16K33.Dev) (s : BusState) (i : Int) (c : Char),
      HT16K33.TUBE_CHARS c = none →
        HT16K33.display_char_left b d s i c = (false, s) ∧
        HT16K33.display_char_right b d s i c = (false, s)) := by
  constructor
  · intro b d s text al hinit hok
    have hclear := ht_clear_ok b d s hinit hok
    cases al with
    | true =>
      have hiff := ht_dispLoop_true_iff b d true ((text.take 4).reverse)
        ⟨s.cur, s.log ++ clearWrites⟩ 0
        (by simp only [List.length_reverse, List.length_take, Nat.zero_add]; omega)
        hinit hok
      simp only [HT16K33.display_string, hinit, Bool.not_true,
        Bool.false_eq_true, if_false, if_true, hclear]
      rw [hiff]
      simp
    | false =>
      have hiff := ht_dispLoop_true_iff b d false (text.take 4)
        ⟨s.cur, s.log ++ clearWrites⟩ 0
        (by simp only [List.length_take, Nat.zero_add]; omega)
        hinit hok
      simp only [HT16K33.display_string, hinit, Bool.not_true,
        Bool.false_eq_true, if_false, hclear]
      rw [hiff]
  · intro b d s i c hc
    exact ht_display_char_none b d s i c hc

/-- Witness for C8 (amended) at concrete inputs: `"0X"` left-aligned fails
(the `'X'` aborts), `"AB"` right-aligned succeeds, and both indexed
single-character writes fail without touching the state on unsupported
characters. -/
theorem C8_unsupported_aborts_witness :
    (HT16K33.display_string busAll htReady bs0 ['0', 'X'] false).1 = false ∧
    (HT16K33.display_string busAll htReady bs0 ['A', 'B'] true).1 = true ∧
    HT16K33.display_char_left busAll htReady bs0 0 'X' = (false, bs0) ∧
    HT16K33.display_char_right busAll htReady bs0 2 '~' = (false, bs0) := by
  have h1 := C8_unsupported_aborts.1 busAll htReady bs0 ['0', 'X'] false rfl
    (fun r v => rfl)
  have h2 := C8_unsupported_aborts.1 busAll htReady bs0 ['A', 'B'] true rfl
    (fun r v => rfl)
  refine ⟨?_, h2.mpr (by decide),
    (C8_unsupported_aborts.2 busAll htReady bs0 0 'X' (by decide)).1,
    (C8_unsupported_aborts.2 busAll htReady bs0 2 '~' (by decide)).2⟩
  cases hb : (HT16K33.display_string busAll htReady bs0 ['0', 'X'] false).1 with
  | false => rfl
  | true => exact absurd (h1.mp hb) (by decide)

/-- C3: contract of `PCA9685.set_pwm`.  It fails (returning the state
untouched) when the device is not Ready, and for any channel outside
`[0, 15]`.  On a Ready device with a valid channel it clamps both ticks into
`[0, 4095]` (the clamped values are at most `4095`) and succeeds exactly when
the four writes at `base + 4*channel` succeed — on-low, on-high, off-low,
off-high, carrying the low byte (`&& 0xFF`) and the high bits (`>> 8`) of
each clamped 12-bit value; on success the log extension is exactly those four
writes in order. -/
theorem C3_set_pwm_contract :
    (∀ (b : Bus) (d : PCA9685.Dev) (s : BusState) (ch onT offT : Int),
      d.is_initialized = false → PCA9685.set_pwm b d s ch onT offT = (false, s)) ∧
    (∀ (b : Bus) (d : PCA9685.Dev) (s : BusState) (ch onT offT : Int),
      ch < 0 ∨ 15 < ch → PCA9685.set_pwm b d s ch onT offT = (false, s)) ∧
    (∀ (b : Bus) (d : PCA9685.Dev) (s : BusState) (ch onT offT : Int),
      d.is_initialized = true → 0 ≤ ch → ch ≤ 15 →
        ((PCA9685.set_pwm b d s ch onT offT).1 =
          (b.wDataOk s.cur (6 + 4 * ch.toNat) ((pyClamp 4095 onT).toNat &&& 0xFF) &&
           b.wDataOk s.cur (7 + 4 * ch.toNat) (((pyClamp 4095 onT).toNat >>> 8) &&& 0xFF) &&
           b.wDataOk s.cur (8 + 4 * ch.toNat) ((pyClamp 4095 offT).toNat &&& 0xFF) &&
           b.wDataOk s.cur (9 + 4 * ch.toNat) (((pyClamp 4095 offT).toNat >>> 8) &&& 0xFF)) ∧
         (pyClamp 4095 onT).toNat ≤ 4095 ∧
         (pyClamp 4095 offT).toNat ≤ 4095 ∧
         ((PCA9685.set_pwm b d s ch onT offT).1 = true →
           (PCA9685.set_pwm b d s ch onT offT).2.log =
             s.log ++
               [.wData (6 + 4 * ch.toNat) ((pyClamp 4095 onT).toNat &&& 0xFF),
                .wData (7 + 4 * ch.toNat) (((pyClamp 4095 onT).toNat >>> 8) &&& 0xFF),
                .wData (8 + 4 * ch.toNat) ((pyClamp 4095 offT).toNat &&& 0xFF),
                .wData (9 + 4 * ch.toNat) (((pyClamp 4095 offT).toNat >>> 8) &&& 0xFF)]))) := by
  refine ⟨?_, ?_, ?_⟩
  · intro b d s ch onT offT hinit
    simp [PCA9685.set_pwm, hinit]
  · intro b d s ch onT offT hch
    cases hd : d.is_initialized
    · simp [PCA9685.set_pwm, hd]
    · have hc : (decide (ch < 0) || decide (15 < ch)) = true := by
        rcases hch with h | h <;> simp [h]
      simp [PCA9685.set_pwm, hd, hc]
  · intro b d s ch onT offT hinit h0 h15
    obtain ⟨h1, _, h3⟩ := pca_set_pwm_spec b d s ch onT offT hinit h0 h15
    refine ⟨h1, ?_, ?_, h3⟩
    · simp only [pyClamp]; omega
    · simp only [pyClamp]; omega

/-- Witness for C3 at concrete inputs: on a Ready device over a perfect bus,
channel 2 with out-of-range ticks `on = 5000`, `off = -3` clamps to
`4095`/`0` and writes registers 14–17 with bytes `255, 15, 0, 0`; an
uninitialized device and a channel of 16 both fail without touching the
state. -/
theorem C3_set_pwm_contract_witness :
    (PCA9685.set_pwm busAll pcaReady bs0 2 5000 (-3)).1 = true ∧
    (PCA9685.set_pwm busAll pcaReady bs0 2 5000 (-3)).2.log =
      [BusOp.wData 14 255, BusOp.wData 15 15, BusOp.wData 16 0, BusOp.wData 17 0] ∧
    PCA9685.set_pwm busAll pcaFresh bs0 2 0 0 = (false, bs0) ∧
    PCA9685.set_pwm busAll pcaReady bs0 16 0 0 = (false, bs0) := by
  have h := C3_set_pwm_contract.2.2 busAll pcaReady bs0 2 5000 (-3) rfl
    (by decide) (by decide)
  have hres : (PCA9685.set_pwm busAll pcaReady bs0 2 5000 (-3)).1 = true := by
    rw [h.1]; decide
  refine ⟨hres, ?_, ?_, ?_⟩
  · rw [h.2.2.2 hres]; decide
  · exact C3_set_pwm_contract.1 busAll pcaFresh bs0 2 0 0 rfl
  · exact C3_set_pwm_contract.2.1 busAll pcaReady bs0 16 0 0 (Or.inr (by decide))

/-- Witness for C10 at concrete inputs: with no address and no initialization
the broadcast write refuses; a fresh device with a resolved address performs
the four broadcast writes while still uninitialized; `set_pwm` refuses on the
same fresh device; `init` on the fresh device over a perfect bus writes the
mode register and the four broadcast zeroes, then reports Ready. -/
theorem C10_e2_set_all_pwm_precondition_witness :
    E2PCA9685.set_all_pwm busAll ⟨true, none, false⟩ bs0 1 2 = (false, bs0) ∧
    (E2PCA9685.set_all_pwm busAll e2Fresh bs0 0 4095).1 = true ∧
    (E2PCA9685.set_all_pwm busAll e2Fresh bs0 0 4095).2.log =
      [BusOp.wData 0xFA 0, BusOp.wData 0xFB 0,
       BusOp.wData 0xFC 255, BusOp.wData 0xFD 15] ∧
    E2PCA9685.set_pwm busAll e2Fresh bs0 0 0 0 = (false, bs0) ∧
    (E2PCA9685.init busAll e2Fresh bs0).1 = true ∧
    (E2PCA9685.init busAll e2Fresh bs0).2.2.log =
      [BusOp.wData 0 0, BusOp.wData 0xFA 0, BusOp.wData 0xFB 0,
       BusOp.wData 0xFC 0, BusOp.wData 0xFD 0] := by
  have hbc := C10_e2_set_all_pwm_precondition.2.1 busAll e2Fresh bs0 0 4095 0x64 rfl
  have hbc1 : (E2PCA9685.set_all_pwm busAll e2Fresh bs0 0 4095).1 = true := by
    rw [hbc.1]; decide
  have hin := C10_e2_set_all_pwm_precondition.2.2.2 busAll e2Fresh bs0 0x64
    rfl rfl (by decide) rfl (fun r v => rfl)
  refine ⟨C10_e2_set_all_pwm_precondition.1 busAll ⟨true, none, false⟩ bs0 1 2 rfl rfl,
    hbc1, ?_, C10_e2_set_all_pwm_precondition.2.2.1 busAll e2Fresh bs0 0 0 0 rfl,
    hin.1, ?_⟩
  · rw [hbc.2 hbc1]; decide
  · rw [hin.2.2]; decide

/-- Witness for C1 (amended) at concrete inputs: level `37` on a Ready device
over a perfect bus writes off-tick `floor(4095*37/100) = 1515` (bytes
`235`/`5`); level `-7` clamps to `0` and writes off-tick `0`. -/
theorem C1_fan_speed_floor_witness :
    (E2PCA9685.set_fan_speed busAll e2Ready bs0 37).1 = true ∧
    (E2PCA9685.set_fan_speed busAll e2Ready bs0 37).2.log =
      [BusOp.wData 6 0, BusOp.wData 7 0, BusOp.wData 8 235, BusOp.wData 9 5] ∧
    (E2PCA9685.set_fan_speed busAll e2Ready bs0 (-7)).2.log =
      [BusOp.wData 6 0, BusOp.wData 7 0, BusOp.wData 8 0, BusOp.wData 9 0] := by
  have h37 := C1_fan_speed_floor busAll e2Ready bs0 37 rfl (fun r v => rfl)
  have hm7 := C1_fan_speed_floor busAll e2Ready bs0 (-7) rfl (fun r v => rfl)
  refine ⟨h37.1, ?_, ?_⟩
  · rw [h37.2.1]; decide
  · rw [hm7.2.1]; decide
